import Mathlib

/-!
Verification of the sample transformation and execution pipeline
(documentation code-sample testing framework: `core/base_executor.py`,
`languages/python/executor.py`, `languages/csharp/executor.py`,
`scripts/run_tests.py`).

The Python sources are shallowly embedded: pure string manipulation becomes
functions on `String` / `List Char`, the regex substitutions of the rewrite
pipeline become explicit left-to-right scanners with the exact semantics of
`re.sub` (leftmost non-overlapping matches, advance by one character on a
failed attempt), and the effectful parts (subprocess execution, temporary
directories) become functions over explicit outcome/state values.  Machine
floats for wall-clock durations are modelled by rationals.
-/

/-! ## String helpers mirroring Python's built-in behaviour -/

/-- Python's whitespace characters for `str.strip` and `\s` (ASCII range,
which is all the sources use). -/
def pyWs (c : Char) : Bool :=
  c = ' ' || c = '\t' || c = '\n' || c = '\r' || c = '\x0c' || c = '\x0b'

/-- Characters matched by a regex word class `\w` (ASCII range). -/
def wordChar (c : Char) : Bool :=
  c.isAlpha || c.isDigit || c = '_'

/-- Remove trailing whitespace of a character list. -/
def dropTrailWs (cs : List Char) : List Char :=
  ((cs.reverse).dropWhile pyWs).reverse

/-- Python `str.strip()` on a character list. -/
def pyStripL (cs : List Char) : List Char :=
  dropTrailWs (cs.dropWhile pyWs)

/-- Python `str.strip()`. -/
def pyStrip (s : String) : String :=
  ⟨pyStripL s.data⟩

/-- Whether `needle` occurs as a contiguous sublist of `hay`. -/
def listContains (hay needle : List Char) : Bool :=
  needle.isPrefixOf hay ||
    match hay with
    | [] => false
    | _ :: t => listContains t needle

/-- Python's substring test `needle in hay`. -/
def containsSub (hay needle : String) : Bool :=
  listContains hay.data needle.data

/-- ASCII lower-casing of one character (what `str.lower()` does on the
ASCII text these sources handle). -/
def lowerChar (c : Char) : Char :=
  if c.isUpper then Char.ofNat (c.toNat + 32) else c

/-- Python `str.lower()` (ASCII). -/
def lowerStr (s : String) : String :=
  ⟨s.data.map lowerChar⟩

/-- Python `str.split('\n')` on a character list. -/
def splitLinesL : List Char → List (List Char)
  | [] => [[]]
  | c :: t =>
    if c = '\n' then [] :: splitLinesL t
    else
      match splitLinesL t with
      | [] => [[c]]
      | l :: ls => (c :: l) :: ls

/-- Python `str.split('\n')`. -/
def splitLines (s : String) : List String :=
  (splitLinesL s.data).map fun l => (⟨l⟩ : String)

/-- Python `'\n'.join` on character lists. -/
def joinLinesL : List (List Char) → List Char
  | [] => []
  | [l] => l
  | l :: ls => l ++ '\n' :: joinLinesL ls

/-- Python `'\n'.join(lines)`. -/
def joinLines (lines : List String) : String :=
  ⟨joinLinesL (lines.map fun l => l.data)⟩

/-- Python `str.startswith` (and the kernel-reducible replacement for
`String.startsWith`). -/
def strStarts (s pre : String) : Bool :=
  pre.data.isPrefixOf s.data

/-! ## Data model (`core/base_executor.py`)

`CodeSample` and `TestResult` are the two dataclasses; the heterogeneous
`validation_results` dictionary (bools in execution mode, a findings list and
an aggregate flag in analysis mode) is modelled by an association list over a
small sum type. -/

/-- One structured finding of analysis mode (the dictionaries built by
`PythonExecutor._analyze_sample` and its `_check_*` helpers). -/
structure Finding where
  issue : String
  location : String
  problem : String
  fix : String
  impact : String
  blocking : Bool
deriving Repr, DecidableEq

/-- One value of the `validation_results` mapping. -/
inductive ValEntry where
  | bool (b : Bool)
  | findingList (fs : List Finding)
deriving Repr, DecidableEq

/-- The `CodeSample` dataclass of `core/base_executor.py`. -/
structure CodeSample where
  file_path : String
  line_number : Nat
  code : String
  language : String
  sample_type : String
  imports : List String
  requires_api_key : Bool
  requires_audio_file : Bool
  metadata : List (String × String)
deriving Repr, DecidableEq

/-- The `TestResult` dataclass of `core/base_executor.py`.  The
`validation_results` field is declared `Dict[str, bool] = None` in the
source, so the field itself can hold `None`; construction (below) never
leaves it so. -/
structure TestResult where
  sample : CodeSample
  success : Bool
  execution_time : Rat
  stdout : String
  stderr : String
  error_message : String
  validation_results : Option (List (String × ValEntry))
deriving Repr, DecidableEq

/-- The `TestResult` dataclass constructor including `__post_init__`, which
replaces a `None` `validation_results` with the empty mapping. -/
def mkTestResult (sample : CodeSample) (success : Bool) (execution_time : Rat)
    (stdout stderr error_message : String)
    (validation_results : Option (List (String × ValEntry))) : TestResult :=
  { sample := sample
    success := success
    execution_time := execution_time
    stdout := stdout
    stderr := stderr
    error_message := error_message
    validation_results := some (validation_results.getD []) }

/-- Framework configuration keys the core reads
(`framework_config.get('mocking', {}).get('api_key_placeholder', 'test_key')`
and `framework_config.get('execution', {}).get('timeout_seconds', 30)`);
a missing nesting level reads like a missing key, so each is one `Option`. -/
structure FrameworkConfig where
  api_key_placeholder : Option String
  timeout_seconds : Option Rat
deriving Repr

/-- `BaseExecutor.create_mock_environment`. -/
def create_mock_environment (cfg : FrameworkConfig) : List (String × String) :=
  let k := cfg.api_key_placeholder.getD "test_key"
  [("DEEPGRAM_API_KEY", k), ("DEEPGRAM_TOKEN", k)]

/-- The timeout `CSharpExecutor.execute_sample` passes to `subprocess.run`. -/
def timeout_of (cfg : FrameworkConfig) : Rat :=
  cfg.timeout_seconds.getD 30

/-- Comment-only test of `BaseExecutor.should_skip_sample`: every non-blank
line, stripped, starts with `#`. -/
def comment_only_py (code : String) : Bool :=
  let lines := ((splitLines code).map pyStrip).filter (fun l => l ≠ "")
  lines.all (fun l => strStarts l "#")

/-- `BaseExecutor.should_skip_sample`. -/
def should_skip_sample (sample : CodeSample) : Bool :=
  if (pyStrip sample.code).length < 20 then true
  else if comment_only_py sample.code then true
  else false

/-! ## The per-sample loop of `TestRunner.run_language_tests`
(`scripts/run_tests.py`, lines 124-181)

The loop body is

    try:
        environment = executor.prepare_test_environment(sample)
        result = executor.execute_sample(sample, environment)
        results.append(result)
        ... printing ...
        executor.cleanup_test_environment(environment)
    except Exception as e:
        ... build a failed TestResult, results.append(result)

`prepare_test_environment` allocates its temporary directory
(`tempfile.mkdtemp()`) first and can raise afterwards (creating the mock
audio file); `execute_sample` may raise as well - the loop's own handler
anticipates exactly that.  The abstract outcomes below enumerate these exit
paths; `process_sample` mirrors the control flow and counts, for the one
directory a non-skipped sample allocates, how many times
`cleanup_test_environment` runs for it. -/

/-- Outcome of `executor.prepare_test_environment(sample)`: normal return,
an exception after `tempfile.mkdtemp()` succeeded (e.g. writing the mock
audio file fails), or an exception before any directory existed. -/
inductive PrepOutcome where
  | ok
  | raisedAfterAlloc (msg : String)
  | raisedBeforeAlloc (msg : String)

/-- Outcome of `executor.execute_sample(sample, environment)`: a returned
`TestResult` (possibly a failed one), or a raised exception. -/
inductive ExecBehavior where
  | returns (r : TestResult)
  | raises (msg : String)

/-- What one iteration of the per-sample loop did with the sample's
temporary directory. -/
structure SampleTrace where
  dirsAllocated : Nat
  cleanupCalls : Nat
  resultRecorded : Bool
deriving Repr, DecidableEq

/-- One iteration of the per-sample loop of `run_language_tests`, traced.
`cleanup_test_environment` stands at the end of the `try:` block and nowhere
else; the `except` branch records a failed result and returns without
cleaning up. -/
def process_sample (skip : Bool) (prep : PrepOutcome) (exec : ExecBehavior) :
    SampleTrace :=
  if skip then
    { dirsAllocated := 0, cleanupCalls := 0, resultRecorded := false }
  else
    match prep with
    | .raisedBeforeAlloc _ =>
        { dirsAllocated := 0, cleanupCalls := 0, resultRecorded := true }
    | .raisedAfterAlloc _ =>
        { dirsAllocated := 1, cleanupCalls := 0, resultRecorded := true }
    | .ok =>
        match exec with
        | .returns _ =>
            { dirsAllocated := 1, cleanupCalls := 1, resultRecorded := true }
        | .raises _ =>
            { dirsAllocated := 1, cleanupCalls := 0, resultRecorded := true }

/-! ## `CSharpExecutor.execute_sample` (`languages/csharp/executor.py`)

The subprocess call is the external boundary: its outcome (exit, timeout
after at least the configured bound - the documented `subprocess.run`
contract - or another exception) is a parameter, as are the wall-clock
durations of the project-setup phase and of the subprocess call, whose sum
is what `time.time() - start_time` measures on each return path.
`validate_sample` evaluates configured regex rules; the pattern search
itself comes from the configuration boundary and is a parameter. -/

/-- One configured validation rule (`language_config['validation_rules']`). -/
structure ValidationRule where
  name : String
  check : String
  expected : Bool

/-- `CSharpExecutor.validate_sample`: a rule passes when pattern-found
equals the rule's expectation. -/
def validate_sample (search : String → String → Bool)
    (rules : List ValidationRule) (sample : CodeSample) :
    List (String × ValEntry) :=
  rules.map fun r =>
    let found := search r.check sample.code
    (r.name, ValEntry.bool (if r.expected then found else !found))

/-- How the `subprocess.run(["dotnet", "run"], ...)` call ends. -/
inductive SubprocessOutcome where
  | completed (returncode : Int) (stdout stderr : String)
  | timedOut
  | raised (msg : String)

/-- `CSharpExecutor.execute_sample`: `tSetup` is the time spent before the
subprocess call (project creation, package restore), `tRun` the duration of
the `subprocess.run` call itself. -/
def csharp_execute_sample (search : String → String → Bool)
    (rules : List ValidationRule) (sample : CodeSample)
    (outcome : SubprocessOutcome) (tSetup tRun : Rat) : TestResult :=
  match outcome with
  | .completed rc out err =>
      mkTestResult sample (rc == 0) (tSetup + tRun) out err ""
        (some (validate_sample search rules sample))
  | .timedOut =>
      mkTestResult sample false (tSetup + tRun) "" "" "Test execution timed out"
        (some [])
  | .raised msg =>
      mkTestResult sample false (tSetup + tRun) "" "" msg (some [])

/-! ## Sample classification (`_determine_sample_type` of both executors)

The surface-token conditions are factored out so that the priority order
(first match wins) can be stated; the classifier itself is the source's
`if`/`elif` chain over exactly these conditions. -/

/-- Python async condition (`"async def" in code or "await " in code or
"AsyncDeepgramClient" in code`). -/
def py_async_cond (code : String) : Bool :=
  containsSub code "async def" || containsSub code "await " ||
    containsSub code "AsyncDeepgramClient"

/-- Python class condition (`"class " in code and "def " in code`). -/
def py_class_cond (code : String) : Bool :=
  containsSub code "class " && containsSub code "def "

/-- Python streaming condition (`"websocket" in code.lower() or
"WebSocket" in code`). -/
def py_streaming_cond (code : String) : Bool :=
  containsSub (lowerStr code) "websocket" || containsSub code "WebSocket"

/-- Python function condition (`"def " in code`). -/
def py_function_cond (code : String) : Bool :=
  containsSub code "def "

/-- `PythonExecutor._determine_sample_type`. -/
def py_determine_sample_type (code : String) : String :=
  if py_async_cond code then "async"
  else if py_class_cond code then "class"
  else if py_streaming_cond code then "streaming"
  else if py_function_cond code then "function"
  else "sync"

/-- C# async condition (`"async " in code and "await " in code`). -/
def cs_async_cond (code : String) : Bool :=
  containsSub code "async " && containsSub code "await "

/-- C# class condition (`"class " in code and "public " in code`). -/
def cs_class_cond (code : String) : Bool :=
  containsSub code "class " && containsSub code "public "

/-- C# web condition (`"Controller" in code or "WebApi" in code`). -/
def cs_web_cond (code : String) : Bool :=
  containsSub code "Controller" || containsSub code "WebApi"

/-- C# console condition (`"Console." in code`). -/
def cs_console_cond (code : String) : Bool :=
  containsSub code "Console."

/-- `CSharpExecutor._determine_sample_type`. -/
def cs_determine_sample_type (code : String) : String :=
  if cs_async_cond code then "async"
  else if cs_class_cond code then "class"
  else if cs_web_cond code then "web"
  else if cs_console_cond code then "console"
  else "sync"

/-! ## Resource-need flags (`_requires_api_key` / `_requires_audio_file`) -/

/-- `PythonExecutor._requires_api_key`: credential-keyword membership. -/
def py_requires_api_key (code : String) : Bool :=
  containsSub code "api_key" || containsSub code "DEEPGRAM_API_KEY" ||
    containsSub code "DEEPGRAM_TOKEN" || containsSub code "DeepgramClient("

/-- `PythonExecutor._requires_audio_file`: media extension / call-name
membership, case-insensitive on both sides. -/
def py_requires_audio_file (code : String) : Bool :=
  containsSub (lowerStr code) ".wav" || containsSub (lowerStr code) ".mp3" ||
    containsSub (lowerStr code) ".m4a" || containsSub (lowerStr code) "audio_file" ||
    containsSub (lowerStr code) "transcribe_file"

/-- `CSharpExecutor._requires_api_key`. -/
def cs_requires_api_key (code : String) : Bool :=
  containsSub code "apiKey" || containsSub code "DEEPGRAM_API_KEY" ||
    containsSub code "DEEPGRAM_TOKEN" || containsSub code "DeepgramClient("

/-- `CSharpExecutor._requires_audio_file` (patterns lowercased, matched
against the lowercased code). -/
def cs_requires_audio_file (code : String) : Bool :=
  containsSub (lowerStr code) ".wav" || containsSub (lowerStr code) ".mp3" ||
    containsSub (lowerStr code) ".m4a" || containsSub (lowerStr code) "audiofile" ||
    containsSub (lowerStr code) "file.readallbytes" ||
    containsSub (lowerStr code) "transcribe.file"

/-! ## Analysis mode (`PythonExecutor._analyze_sample` and helpers) -/

/-- Build one finding dictionary. -/
def mkFinding (issue location problem fix impact : String) (blocking : Bool) :
    Finding :=
  { issue := issue, location := location, problem := problem, fix := fix,
    impact := impact, blocking := blocking }

/-- `PythonExecutor._check_outdated_sdk_patterns` (its `file_name` argument
is never read). -/
def check_outdated_sdk_patterns (code : String) : List Finding :=
  (if containsSub code "from deepgram import Deepgram" then
    [mkFinding "Outdated SDK Import (v2/v3)" "Import statement"
      "Uses completely outdated import: `from deepgram import Deepgram`"
      "Change to: `from deepgram import DeepgramClient`"
      "Users will get ImportError - this class no longer exists" true]
  else []) ++
  (if containsSub code "Deepgram(" then
    [mkFinding "Outdated Constructor (v2/v3)" "Client instantiation"
      "Uses old constructor: `Deepgram(...)`"
      "Change to: `DeepgramClient(api_key=...)`"
      "Users will get NameError - this class no longer exists" true]
  else []) ++
  (if containsSub code "deepgram.transcription.prerecorded" then
    [mkFinding "Outdated API Pattern (v2/v3)" "API call"
      "Uses old API pattern: `deepgram.transcription.prerecorded`"
      "Change to: `deepgram.listen.prerecorded.v(version)`"
      "Users will get AttributeError - this API structure changed" true]
  else [])

/-- `PythonExecutor._check_missing_imports`. -/
def check_missing_imports (code : String) : List Finding :=
  (if containsSub code "DeepgramClient" &&
      !containsSub code "from deepgram import DeepgramClient" &&
      !containsSub code "from deepgram import" then
    [mkFinding "Missing Core Import" "Top of file"
      "Uses `DeepgramClient` without importing it"
      "Add: `from deepgram import DeepgramClient`"
      "Users will get NameError when trying to create client" true]
  else []) ++
  (if (containsSub code "os.getenv" || containsSub code "os.environ") &&
      !containsSub code "import os" then
    [mkFinding "Missing Standard Import" "Top of file"
      "Uses `os.getenv` or `os.environ` without importing os"
      "Add: `import os`"
      "Users will get NameError when accessing environment variables" true]
  else []) ++
  (if containsSub code "load_dotenv" &&
      !containsSub code "from dotenv import load_dotenv" then
    [mkFinding "Missing Optional Import" "Top of file"
      "Uses `load_dotenv()` without importing it"
      "Add: `from dotenv import load_dotenv` (and note it's optional)"
      "Users without python-dotenv will get ImportError" false]
  else [])

/-- `PythonExecutor._check_placeholder_patterns`. -/
def check_placeholder_patterns (code : String) : List Finding :=
  (if containsSub code "\"YOUR_API_KEY\"" || containsSub code "'YOUR_API_KEY'" then
    [mkFinding "Placeholder API Key" "Client configuration"
      "Uses placeholder string: `'YOUR_API_KEY'`"
      "Show environment variable pattern: `os.getenv('DEEPGRAM_API_KEY')`"
      "Users learn proper API key management from the start" false]
  else []) ++
  (if containsSub code "\"path/to/audio.wav\"" ||
      containsSub code "'path/to/audio.wav'" then
    [mkFinding "Placeholder File Path" "File operations"
      "Uses placeholder path: `'path/to/audio.wav'`"
      "Use realistic example path or show how to get from user input"
      "Users understand how to provide actual file paths" false]
  else [])

/-- `PythonExecutor._check_best_practices`. -/
def check_best_practices (code : String) : List Finding :=
  (if containsSub code "DeepgramClient" && !containsSub code "try:" &&
      decide (10 < (splitLines code).length) then
    [mkFinding "Missing Error Handling" "API calls"
      "Long example without error handling shown"
      "Add try/except block around API calls"
      "Users learn proper error handling patterns" false]
  else []) ++
  (if containsSub code "AsyncDeepgramClient" && !containsSub code "await" then
    [mkFinding "Async Pattern Issue" "Async client usage"
      "Uses AsyncDeepgramClient but no await calls shown"
      "Show proper await usage with async client methods"
      "Users understand how to properly use async client" true]
  else [])

/-- `PythonExecutor._check_common_mistakes`. -/
def check_common_mistakes (code : String) : List Finding :=
  (if containsSub code "DeepgramClient" && containsSub code "AsyncDeepgramClient" then
    [mkFinding "Mixed Client Types" "Client usage"
      "Uses both sync and async clients in same example"
      "Show either sync OR async pattern, not both"
      "Reduces confusion about which client to use" false]
  else []) ++
  (if containsSub code "https://api.deepgram.com" then
    [mkFinding "Hardcoded API URL" "Client configuration"
      "Hardcodes API URL instead of using default"
      "Remove explicit URL (use SDK default) or show as configuration option"
      "Prevents issues if API URL changes" false]
  else [])

/-- `PythonExecutor._analyze_sample`: all pattern checks on the raw sample
text, in source order. -/
def analyze_sample (sample : CodeSample) : List Finding :=
  check_outdated_sdk_patterns sample.code ++
  check_missing_imports sample.code ++
  check_placeholder_patterns sample.code ++
  check_best_practices sample.code ++
  check_common_mistakes sample.code

/-- The five lines `_format_findings` renders per blocking finding. -/
def format_blocking_block (f : Finding) : List String :=
  ["", "**" ++ f.issue ++ "** (" ++ f.location ++ ")",
   "Problem: " ++ f.problem, "Fix: " ++ f.fix, "Impact: " ++ f.impact]

/-- The four lines `_format_findings` renders per non-blocking finding. -/
def format_suggestion_block (f : Finding) : List String :=
  ["", "**" ++ f.issue ++ "** (" ++ f.location ++ ")",
   "Suggestion: " ++ f.fix, "Why: " ++ f.impact]

/-- `PythonExecutor._format_findings`. -/
def format_findings (findings : List Finding) : String :=
  if findings.isEmpty then "✅ No issues found - code looks good!"
  else
    let blocking := findings.filter (fun f => f.blocking)
    let suggestions := findings.filter (fun f => !f.blocking)
    let part1 : List String :=
      if blocking.isEmpty then []
      else
        ("🚨 " ++ toString blocking.length ++
          " issue(s) that prevent users from running this code:") ::
        (blocking.map format_blocking_block).flatten
    let part2 : List String :=
      if suggestions.isEmpty then []
      else
        (if blocking.isEmpty then [] else ["\n" ++ String.mk (List.replicate 50 '=')]) ++
        (("💡 " ++ toString suggestions.length ++
            " suggestion(s) to improve this example:") ::
          (suggestions.map format_suggestion_block).flatten)
    joinLines (part1 ++ part2)

/-- `PythonExecutor.execute_sample` (analysis mode): never executes the
sample; `elapsed` is the measured wall time of the analysis. -/
def python_execute_sample (sample : CodeSample) (elapsed : Rat) : TestResult :=
  let findings := analyze_sample sample
  let hasBlocking := findings.any (fun f => f.blocking)
  mkTestResult sample (!hasBlocking) elapsed (format_findings findings) "" ""
    (some [("findings", ValEntry.findingList findings),
           ("blocking_issues", ValEntry.bool hasBlocking)])

/-! ## Extraction of fenced code blocks

`_extract_python_samples_for_analysis` runs
`re.finditer(r'```(?:python|py)\n(.*?)\n```', content, re.DOTALL)`;
`_extract_csharp_samples_from_content` runs, for each of four labels,
`re.finditer(r'```LABEL[^\n]*\n(.*?)```', content, re.DOTALL)`.
Both are embedded as fueled left-to-right scanners: at each position try the
match (the lazy group takes the shortest content before the first closing
fence), on success continue after the match, on failure advance one
character.  The fuel is the input length, which bounds the number of scan
steps since every step consumes at least one character. -/

/-- Consume a literal prefix. -/
def stripLit (lit cs : List Char) : Option (List Char) :=
  if lit.isPrefixOf cs then some (cs.drop lit.length) else none

/-- Number of newline characters in a character list. -/
def countNl (cs : List Char) : Nat :=
  cs.count '\n'

/-- Split at the first occurrence of `close` (the lazy `(.*?)` group):
`some (content, rest-after-close)`, or `none` when `close` never occurs. -/
def splitAtClose (close : List Char) : Nat → List Char → Option (List Char × List Char)
  | 0, cs => if close.isPrefixOf cs then some ([], cs.drop close.length) else none
  | n + 1, cs =>
    match stripLit close cs with
    | some rest => some ([], rest)
    | none =>
      match cs with
      | [] => none
      | c :: t =>
        match splitAtClose close n t with
        | some (content, rest) => some (c :: content, rest)
        | none => none

/-- Attempt of the Python block pattern at the current position: three
backticks, then `python` or `py` (alternation order of the source pattern),
a newline, and the lazy content up to the first `\n`-fence close. -/
def tryPyBlock (cs : List Char) : Option (List Char × List Char) :=
  match stripLit ("```".data) cs with
  | none => none
  | some r1 =>
    match stripLit ("python\n".data) r1 with
    | some r2 => splitAtClose ("\n```".data) r2.length r2
    | none =>
      match stripLit ("py\n".data) r1 with
      | some r2 => splitAtClose ("\n```".data) r2.length r2
      | none => none

/-- The scan of `re.finditer` for the Python pattern, tracking the number of
newlines before the current position (for `line_number`): yields
`(newlines-before-match-start + 1, content)` per match. -/
def py_find_blocks : Nat → Nat → List Char → List (Nat × List Char)
  | 0, _, _ => []
  | n + 1, nl, cs =>
    match tryPyBlock cs with
    | some (content, rest) =>
        (nl + 1, content) :: py_find_blocks n (nl + 2 + countNl content) rest
    | none =>
      match cs with
      | [] => []
      | c :: t => py_find_blocks n (if c = '\n' then nl + 1 else nl) t

/-- `PythonExecutor._extract_python_samples_for_analysis`: skip only blocks
whose stripped content is empty or shorter than 10 characters; keep the
block text unmodified; `requires_api_key` is hardcoded `True` and
`requires_audio_file` is the substring test `"audio" in code.lower()`. -/
def py_extract_samples_for_analysis (file_path content : String) :
    List CodeSample :=
  (py_find_blocks content.data.length 0 content.data).filterMap
    fun (p : Nat × List Char) =>
      let code : String := ⟨p.2⟩
      if pyStrip code = "" || (pyStrip code).length < 10 then none
      else some
        { file_path := file_path
          line_number := p.1
          code := code
          language := "python"
          sample_type := "python_block"
          imports := []
          requires_api_key := true
          requires_audio_file := containsSub (lowerStr code) "audio"
          metadata := [] }

/-- Comment-only test of `CSharpExecutor._should_skip_code_block`. -/
def cs_comment_only (code : String) : Bool :=
  let lines := ((splitLines code).map pyStrip).filter (fun l => l ≠ "")
  lines.all (fun l => strStarts l "//" || strStarts l "/*" || strStarts l "*")

/-- Deepgram-relatedness test of `CSharpExecutor._should_skip_code_block`
(each pattern lowercased against the lowercased code). -/
def cs_deepgram_related (code : String) : Bool :=
  containsSub (lowerStr code) "using deepgram" ||
    containsSub (lowerStr code) "deepgramclient" ||
    containsSub (lowerStr code) "deepgram." ||
    containsSub (lowerStr code) "deepgram"

/-- `CSharpExecutor._should_skip_code_block`. -/
def cs_should_skip_code_block (code : String) : Bool :=
  if (pyStrip code).length < 30 then true
  else if cs_comment_only code then true
  else if !cs_deepgram_related code then true
  else false

/-- Attempt of one C# block pattern (label `csharp`, `cs`, `c#` or
`dotnet`): three backticks, the label, any run of non-newline characters, a
newline, and the lazy content up to the first three backticks. -/
def tryCsBlock (label : List Char) (cs : List Char) :
    Option (List Char × List Char) :=
  match stripLit ("```".data ++ label) cs with
  | none => none
  | some r1 =>
    let r2 := r1.dropWhile (fun c => c ≠ '\n')
    match r2 with
    | '\n' :: r3 => splitAtClose ("```".data) r3.length r3
    | _ => none

/-- The scan of `re.finditer` for one C# pattern, with newline tracking. -/
def cs_find_blocks (label : List Char) : Nat → Nat → List Char → List (Nat × List Char)
  | 0, _, _ => []
  | n + 1, nl, cs =>
    match tryCsBlock label cs with
    | some (content, rest) =>
        (nl + 1, content) :: cs_find_blocks label n (nl + 1 + countNl content) rest
    | none =>
      match cs with
      | [] => []
      | c :: t => cs_find_blocks label n (if c = '\n' then nl + 1 else nl) t

/-- Number of usable `using` statements: the regex `^using\s+[^;]+;` matches
at a line start when at least one whitespace character follows `using` and a
semicolon follows at distance at least two (the greedy/backtracking
interplay of `\s+[^;]+`). -/
def tryUsingMatch (cs : List Char) : Option (List Char × List Char) :=
  match stripLit ("using".data) cs with
  | none => none
  | some r1 =>
    match r1 with
    | [] => none
    | c :: _ =>
      if pyWs c then
        let pre := r1.takeWhile (fun ch => ch ≠ ';')
        if 2 ≤ pre.length then
          match r1.drop pre.length with
          | ';' :: rest => some ("using".data ++ pre ++ [';'], rest)
          | _ => none
        else none
      else none

/-- The `re.findall(r'^using\s+[^;]+;', code, re.MULTILINE)` scan of
`CSharpExecutor._extract_imports`: matches start only at line starts. -/
def cs_find_usings : Nat → Bool → List Char → List (List Char)
  | 0, _, _ => []
  | n + 1, atStart, cs =>
    match (if atStart then tryUsingMatch cs else none) with
    | some (matched, rest) => matched :: cs_find_usings n false rest
    | none =>
      match cs with
      | [] => []
      | c :: t => cs_find_usings n (c = '\n') t

/-- `CSharpExecutor._extract_imports`. -/
def cs_extract_imports (code : String) : List String :=
  (cs_find_usings code.data.length true code.data).map fun m => (⟨m⟩ : String)

/-- The per-match sample construction of
`_extract_csharp_samples_from_content` for one pattern: the captured group
is stripped, then filtered by `_should_skip_code_block`, then classified. -/
def cs_samples_of_pattern (file_path : String) (label : String)
    (content : String) : List CodeSample :=
  (cs_find_blocks label.data content.data.length 0 content.data).filterMap
    fun (p : Nat × List Char) =>
      let code := pyStrip ⟨p.2⟩
      if cs_should_skip_code_block code then none
      else some
        { file_path := file_path
          line_number := p.1
          code := code
          language := "csharp"
          sample_type := cs_determine_sample_type code
          imports := cs_extract_imports code
          requires_api_key := cs_requires_api_key code
          requires_audio_file := cs_requires_audio_file code
          metadata := [] }

/-- `CSharpExecutor._extract_csharp_samples_from_content`: the four patterns
run one after the other over the whole content, appending their samples. -/
def cs_extract_samples_from_content (file_path content : String) :
    List CodeSample :=
  cs_samples_of_pattern file_path "csharp" content ++
  cs_samples_of_pattern file_path "cs" content ++
  cs_samples_of_pattern file_path "c#" content ++
  cs_samples_of_pattern file_path "dotnet" content

/-- Every sample one C# pattern produces passed `_should_skip_code_block`
and carries fields computed from its own (stripped) code. -/
theorem mem_cs_samples_of_pattern {fp label content : String} {s : CodeSample}
    (h : s ∈ cs_samples_of_pattern fp label content) :
    cs_should_skip_code_block s.code = false ∧
    s.requires_api_key = cs_requires_api_key s.code ∧
    s.requires_audio_file = cs_requires_audio_file s.code := by
  unfold cs_samples_of_pattern at h
  rcases List.mem_filterMap.1 h with ⟨p, -, hf⟩
  dsimp only at hf
  by_cases hskip : cs_should_skip_code_block (pyStrip ⟨p.2⟩)
  · rw [if_pos hskip] at hf
    exact Option.noConfusion hf
  · rw [if_neg hskip] at hf
    cases hf
    exact ⟨by simpa using hskip, rfl, rfl⟩

/-- Every sample the Python analysis extraction produces has stripped
length at least 10 and carries the hardcoded/substring-test flags. -/
theorem mem_py_extract_samples {fp content : String} {s : CodeSample}
    (h : s ∈ py_extract_samples_for_analysis fp content) :
    10 ≤ (pyStrip s.code).length ∧
    s.requires_api_key = true ∧
    s.requires_audio_file = containsSub (lowerStr s.code) "audio" := by
  unfold py_extract_samples_for_analysis at h
  rcases List.mem_filterMap.1 h with ⟨p, -, hf⟩
  dsimp only at hf
  by_cases hskip : (pyStrip (⟨p.2⟩ : String) = "" || decide ((pyStrip (⟨p.2⟩ : String)).length < 10)) = true
  · rw [if_pos hskip] at hf
    exact Option.noConfusion hf
  · rw [if_neg hskip] at hf
    cases hf
    have h2 : 10 ≤ (pyStrip (⟨p.2⟩ : String)).length := by
      simp only [Bool.or_eq_true, decide_eq_true_eq] at hskip
      push_neg at hskip
      exact hskip.2
    exact ⟨h2, rfl, rfl⟩

/-- `cs_should_skip_code_block` is false exactly when the stripped length
is at least 30, the block is not comment-only, and it is Deepgram-related. -/
theorem cs_should_skip_eq_false_iff (code : String) :
    cs_should_skip_code_block code = false ↔
      (30 ≤ (pyStrip code).length ∧ cs_comment_only code = false ∧
        cs_deepgram_related code = true) := by
  unfold cs_should_skip_code_block
  split_ifs with h1 h2 h3 <;> simp_all [Nat.le_of_not_lt]

/-- Membership in the full C# extraction factors through one of the four
patterns. -/
theorem mem_cs_extract {fp content : String} {s : CodeSample}
    (h : s ∈ cs_extract_samples_from_content fp content) :
    cs_should_skip_code_block s.code = false ∧
    s.requires_api_key = cs_requires_api_key s.code ∧
    s.requires_audio_file = cs_requires_audio_file s.code := by
  unfold cs_extract_samples_from_content at h
  simp only [List.mem_append] at h
  rcases h with ((h | h) | h) | h <;> exact mem_cs_samples_of_pattern h

/-! ## The `re.sub` scan

Every substitution of the rewrite pipeline is `re.sub(pattern, repl, code)`:
scan left to right, at each position attempt the pattern, on success emit
the replacement and continue after the match, on failure emit the character
and advance by one.  A matcher gets the previous character (for `\b` and
the `^` of MULTILINE patterns) and the remaining text, and returns the
replacement, the last character of the matched span, and the rest.  The
scan is fueled by the input length, which bounds the step count because
every pattern of the pipeline consumes at least one character. -/

/-- Matcher type of one substitution attempt. -/
def TryFun : Type :=
  Option Char → List Char → Option (List Char × Char × List Char)

/-- The fueled `re.sub` scan. -/
def reSubF (f : TryFun) : Nat → Option Char → List Char → List Char
  | 0, _, cs => cs
  | _ + 1, _, [] => []
  | n + 1, prev, c :: t =>
    match f prev (c :: t) with
    | some (repl, lastc, rest) => repl ++ reSubF f n (some lastc) rest
    | none => c :: reSubF f n (some c) t

/-- `re.sub` on a character list. -/
def reSubL (f : TryFun) (cs : List Char) : List Char :=
  reSubF f cs.length none cs

/-- `re.sub` on a string. -/
def reSub (f : TryFun) (s : String) : String :=
  ⟨reSubL f s.data⟩

/-- A quote character of the regex class `["\']`. -/
def isQuote (c : Char) : Bool :=
  c = '"' || c = '\''

/-- The previous character is absent or not a word character (the `\b`
test before a word-initial pattern). -/
def prevNotWord : Option Char → Bool
  | none => true
  | some c => !wordChar c

/-- The scan stands at the start of the text or of a line (the `^` of a
MULTILINE pattern). -/
def atLineStart : Option Char → Bool
  | none => true
  | some c => c = '\n'

/-- Matcher of a fixed literal pattern. -/
def litSub (lit repl : List Char) : TryFun := fun _ cs =>
  match stripLit lit cs with
  | some rest => some (repl, lit.getLastD ' ', rest)
  | none => none

/-- Matcher of the first of a list of fixed literal patterns. -/
def litsSub : List (List Char) → List Char → TryFun
  | [], _ => fun _ _ => none
  | l :: ls, repl => fun p cs =>
    match litSub l repl p cs with
    | some r => some r
    | none => litsSub ls repl p cs

/-- Matcher of a literal followed by a word boundary. -/
def litWordEndSub (lit repl : List Char) : TryFun := fun _ cs =>
  match stripLit lit cs with
  | some rest =>
    match rest with
    | [] => some (repl, lit.getLastD ' ', [])
    | c :: _ => if wordChar c then none else some (repl, lit.getLastD ' ', rest)
  | none => none

/-- Matcher of a literal preceded by a word boundary. -/
def litWordStartSub (lit repl : List Char) : TryFun := fun prev cs =>
  if prevNotWord prev then litSub lit repl prev cs else none

/-- Matcher of a literal preceded and followed by word boundaries. -/
def litWordBothSub (lit repl : List Char) : TryFun := fun prev cs =>
  if prevNotWord prev then litWordEndSub lit repl prev cs else none

/-! ## Credential substitution (`_prepare_code_for_execution`, steps 3-4)

`re.sub(r'"YOUR_API_KEY"', '"test_api_key"', code)` and the single-quoted
twin are fixed-string substitutions.  The two environment patterns
`os\.getenv\(["\']DEEPGRAM_API_KEY["\']\)` and
`os\.environ\.get\(["\']DEEPGRAM_API_KEY["\']\)` each denote exactly the
four literal strings obtained by choosing each quote class member, so they
are embedded as first-of-four fixed-string matchers. -/

/-- The double-quoted placeholder substitution. -/
def credDqSub : TryFun :=
  litSub ("\"YOUR_API_KEY\"").data ("\"test_api_key\"").data

/-- The single-quoted placeholder substitution. -/
def credSqSub : TryFun :=
  litSub ("'YOUR_API_KEY'").data ("'test_api_key'").data

/-- The four strings `os\.getenv\(["\']DEEPGRAM_API_KEY["\']\)` denotes. -/
def getenvVariants : List (List Char) :=
  [("os.getenv(\"DEEPGRAM_API_KEY\")").data,
   ("os.getenv(\"DEEPGRAM_API_KEY')").data,
   ("os.getenv('DEEPGRAM_API_KEY\")").data,
   ("os.getenv('DEEPGRAM_API_KEY')").data]

/-- The four strings `os\.environ\.get\(["\']DEEPGRAM_API_KEY["\']\)`
denotes. -/
def environGetVariants : List (List Char) :=
  [("os.environ.get(\"DEEPGRAM_API_KEY\")").data,
   ("os.environ.get(\"DEEPGRAM_API_KEY')").data,
   ("os.environ.get('DEEPGRAM_API_KEY\")").data,
   ("os.environ.get('DEEPGRAM_API_KEY')").data]

/-- The `os.getenv` credential-read substitution. -/
def getenvSub : TryFun :=
  litsSub getenvVariants ("\"test_api_key\"").data

/-- The `os.environ.get` credential-read substitution. -/
def environGetSub : TryFun :=
  litsSub environGetVariants ("\"test_api_key\"").data

/-- The credential-replacement step of `_prepare_code_for_execution`
(lines 589-593): both quoting styles of the placeholder, then the two
recognized read-credential-from-environment call patterns, each replaced by
the fixed literal test credential. -/
def credential_substitution (code : String) : String :=
  reSub environGetSub (reSub getenvSub (reSub credSqSub (reSub credDqSub code)))

/-- All fixed strings the credential-replacement step rewrites. -/
def credPatterns : List (List Char) :=
  ("\"YOUR_API_KEY\"").data :: ("'YOUR_API_KEY'").data ::
    (getenvVariants ++ environGetVariants)

/-- Whether a text holds no occurrence of any credential pattern. -/
def cred_pattern_free (s : String) : Bool :=
  credPatterns.all fun p => !listContains s.data p

/-! ## Outdated-import fixes (`_prepare_code_for_execution`, step 5) -/

/-- `re.sub(r'from deepgram import Deepgram\b', 'from deepgram import
DeepgramClient', code)`. -/
def importFixSub : TryFun :=
  litWordEndSub ("from deepgram import Deepgram").data
    ("from deepgram import DeepgramClient").data

/-- `re.sub(r'\bDeepgram\(', 'DeepgramClient(', code)`. -/
def constructorFixSub : TryFun :=
  litWordStartSub ("Deepgram(").data ("DeepgramClient(").data

/-- `re.sub(r'\bDEEPGRAM_API_KEY\b', '"test_api_key"', code)`. -/
def apiKeyNameSub : TryFun :=
  litWordBothSub ("DEEPGRAM_API_KEY").data ("\"test_api_key\"").data

/-! ## Blocking-operation neutralization (`_replace_blocking_operations`) -/

/-- `re.sub(r'\binput\(\s*\)', '"test_input"', code)`. -/
def inputEmptySub : TryFun := fun prev cs =>
  if prevNotWord prev then
    match stripLit ("input(").data cs with
    | none => none
    | some r1 =>
      let w := r1.takeWhile pyWs
      match r1.drop w.length with
      | ')' :: r2 => some (("\"test_input\"").data, ')', r2)
      | _ => none
  else none

/-- `re.sub(r'\binput\(\s*["\'][^"\']*["\']\s*\)', '"test_input"', code)`. -/
def inputPromptSub : TryFun := fun prev cs =>
  if prevNotWord prev then
    match stripLit ("input(").data cs with
    | none => none
    | some r1 =>
      let w1 := r1.takeWhile pyWs
      match r1.drop w1.length with
      | q1 :: r2 =>
        if isQuote q1 then
          let body := r2.takeWhile (fun c => !isQuote c)
          match r2.drop body.length with
          | q2 :: r3 =>
            if isQuote q2 then
              let w2 := r3.takeWhile pyWs
              match r3.drop w2.length with
              | ')' :: r4 => some (("\"test_input\"").data, ')', r4)
              | _ => none
            else none
          | [] => none
        else none
      | [] => none
  else none

/-- Split a character list right before its last newline:
`some (before, from-the-newline-on)`, or `none` when it has none. -/
def lastNlSplit : List Char → Option (List Char × List Char)
  | [] => none
  | c :: t =>
    match lastNlSplit t with
    | some (p, s) => some (c :: p, s)
    | none => if c = '\n' then some ([], c :: t) else none

/-- `re.sub(r'^(\s*)while\s+True\s*:\s*$', r'\1for _ in range(3):', code,
flags=re.MULTILINE)`: the captured leading whitespace is kept, the trailing
`\s*$` consumes up to the end of input, or - backtracking - up to the last
newline of the trailing whitespace run. -/
def whileTrueSub : TryFun := fun prev cs =>
  if atLineStart prev then
    let g1 := cs.takeWhile pyWs
    match stripLit ("while").data (cs.drop g1.length) with
    | none => none
    | some r1 =>
      let w1 := r1.takeWhile pyWs
      if w1.isEmpty then none
      else
        match stripLit ("True").data (r1.drop w1.length) with
        | none => none
        | some r2 =>
          let w2 := r2.takeWhile pyWs
          match r2.drop w2.length with
          | ':' :: r3 =>
            let w3 := r3.takeWhile pyWs
            let rest0 := r3.drop w3.length
            if rest0.isEmpty then
              some (g1 ++ ("for _ in range(3):").data, w3.getLastD ':', [])
            else
              match lastNlSplit w3 with
              | some (p, s) =>
                  some (g1 ++ ("for _ in range(3):").data, p.getLastD ':',
                    s ++ rest0)
              | none => none
          | _ => none
  else none

/-- `re.sub(r'time\.sleep\(\s*\d+\s*\)', 'time.sleep(0.1)', code)`. -/
def sleepIntSub : TryFun := fun _ cs =>
  match stripLit ("time.sleep(").data cs with
  | none => none
  | some r1 =>
    let w1 := r1.takeWhile pyWs
    let r2 := r1.drop w1.length
    let ds := r2.takeWhile Char.isDigit
    if ds.isEmpty then none
    else
      let r3 := r2.drop ds.length
      let w2 := r3.takeWhile pyWs
      match r3.drop w2.length with
      | ')' :: r4 => some (("time.sleep(0.1)").data, ')', r4)
      | _ => none

/-- `re.sub(r'time\.sleep\(\s*\d*\.\d+\s*\)', 'time.sleep(0.1)', code)`. -/
def sleepFloatSub : TryFun := fun _ cs =>
  match stripLit ("time.sleep(").data cs with
  | none => none
  | some r1 =>
    let w1 := r1.takeWhile pyWs
    let r2 := r1.drop w1.length
    let ds := r2.takeWhile Char.isDigit
    match r2.drop ds.length with
    | '.' :: r3 =>
      let ds2 := r3.takeWhile Char.isDigit
      if ds2.isEmpty then none
      else
        let r4 := r3.drop ds2.length
        let w2 := r4.takeWhile pyWs
        match r4.drop w2.length with
        | ')' :: r5 => some (("time.sleep(0.1)").data, ')', r5)
        | _ => none
    | _ => none

/-- Matcher of `(\w+)` followed by a literal method-call pattern, with the
replacement built from the captured receiver (the scan tries every
position, so the capture is the maximal word run at the match start). -/
def methodCallSub (callLit : List Char) (replOf : List Char → List Char) :
    TryFun := fun _ cs =>
  match cs with
  | c :: _ =>
    if wordChar c then
      let w := cs.takeWhile wordChar
      match stripLit callLit (cs.drop w.length) with
      | some rest => some (replOf w, callLit.getLastD ' ', rest)
      | none => none
    else none
  | [] => none

/-- `re.sub(r'(\w+)\.start_listening\(\)', r'pass  # \1.start_listening()
- skipped in tests', code)`. -/
def startListeningSub : TryFun :=
  methodCallSub (".start_listening()").data fun w =>
    ("pass  # ").data ++ w ++ (".start_listening() - skipped in tests").data

/-- `re.sub(r'(\w+)\.connect\(\)', r'pass  # \1.connect() - skipped in
tests', code)`. -/
def connectSub : TryFun :=
  methodCallSub (".connect()").data fun w =>
    ("pass  # ").data ++ w ++ (".connect() - skipped in tests").data

/-- The mocked-transcription replacement text of the `transcribe_url`
substitution (braces written as hex escapes). -/
def transcribeReplTail : List Char :=
  (".listen.v1.media.transcribe_url( - mocked\nprint(\"Mock transcription result\"); response = type(\"obj\", (object,), \x7b\"to_dict\": lambda: \x7b\"results\": \x7b\"channels\": [\x7b\"alternatives\": [\x7b\"transcript\": \"Mock transcription\"\x7d]\x7d]\x7d\x7d\x7d)(); ").data

/-- `re.sub(r'(\w+)\.listen\.v1\.media\.transcribe_url\(', ...)`. -/
def transcribeUrlSub : TryFun :=
  methodCallSub (".listen.v1.media.transcribe_url(").data fun w =>
    ("# ").data ++ w ++ transcribeReplTail

/-- Closing `["\']\)` of the write-mode `open` pattern. -/
def closeQuoteParen : List Char → Option (List Char)
  | q :: ')' :: r => if isQuote q then some r else none
  | _ => none

/-- `re.sub(r'with open\(["\'][^"\']+["\']\s*,\s*["\']w[b]?["\']\)',
r'with open("/tmp/mock_file.tmp", "w")', code)`. -/
def openWriteSub : TryFun := fun _ cs =>
  match stripLit ("with open(").data cs with
  | none => none
  | some r1 =>
    match r1 with
    | q1 :: r2 =>
      if isQuote q1 then
        let body := r2.takeWhile (fun c => !isQuote c)
        if body.isEmpty then none
        else
          match r2.drop body.length with
          | q2 :: r3 =>
            if isQuote q2 then
              let w1 := r3.takeWhile pyWs
              match r3.drop w1.length with
              | ',' :: r4 =>
                let w2 := r4.takeWhile pyWs
                match r4.drop w2.length with
                | q3 :: r5 =>
                  if isQuote q3 then
                    match r5 with
                    | 'w' :: 'b' :: r6 =>
                      match closeQuoteParen r6 with
                      | some r7 =>
                          some (("with open(\"/tmp/mock_file.tmp\", \"w\")").data,
                            ')', r7)
                      | none => none
                    | 'w' :: r6 =>
                      match closeQuoteParen r6 with
                      | some r7 =>
                          some (("with open(\"/tmp/mock_file.tmp\", \"w\")").data,
                            ')', r7)
                      | none => none
                    | _ => none
                  else none
                | [] => none
              | _ => none
            else none
          | [] => none
      else none
    | [] => none

/-- `PythonExecutor._replace_blocking_operations`: the nine substitutions
in source order. -/
def replace_blocking_operations (code : String) : String :=
  reSub openWriteSub
    (reSub transcribeUrlSub
      (reSub connectSub
        (reSub startListeningSub
          (reSub sleepFloatSub
            (reSub sleepIntSub
              (reSub whileTrueSub
                (reSub inputPromptSub
                  (reSub inputEmptySub code))))))))

/-! ## Audio-path substitution (`_replace_audio_file_paths`) -/

/-- The recognized audio extensions of the path patterns. -/
def audioExts : List (List Char) :=
  [(".wav").data, (".mp3").data, (".m4a").data, (".flac").data, (".opus").data]

/-- Whether a quoted content ends in a recognized audio extension
(the `\.(?:wav|mp3|m4a|flac|opus)` tail of the patterns). -/
def endsAudioExt (cs : List Char) : Bool :=
  audioExts.any fun e => e.isSuffixOf cs

/-- Matcher of `q[^q]*\.(?:wav|mp3|m4a|flac|opus)q` for a quote character
`q` (the two quoted-path patterns of `_replace_audio_file_paths`),
replacing the whole quoted path with the quoted mock path. -/
def audioQuoteSub (q : Char) (mock : List Char) : TryFun := fun _ cs =>
  match cs with
  | c :: rest =>
    if c = q then
      let content := rest.takeWhile (fun ch => ch ≠ q)
      match rest.drop content.length with
      | _ :: r2 =>
        if endsAudioExt content then some (q :: mock ++ [q], q, r2) else none
      | [] => none
    else none
  | [] => none

/-- Matcher of `NAME\s*=\s*["\'][^"\']+["\']` (the `audio_file` /
`file_path` assignment patterns), replacing the assignment with
`NAME = "MOCK"`. -/
def varAssignSub (name mock : List Char) : TryFun := fun _ cs =>
  match stripLit name cs with
  | none => none
  | some r1 =>
    let ws1 := r1.takeWhile pyWs
    match r1.drop ws1.length with
    | '=' :: r2 =>
      let ws2 := r2.takeWhile pyWs
      match r2.drop ws2.length with
      | q1 :: r3 =>
        if isQuote q1 then
          let body := r3.takeWhile (fun ch => !isQuote ch)
          if body.isEmpty then none
          else
            match r3.drop body.length with
            | q2 :: r4 =>
              if isQuote q2 then
                some (name ++ (" = \"").data ++ mock ++ ['"'], q2, r4)
              else none
            | [] => none
        else none
      | [] => none
    | _ => none

/-- `PythonExecutor._replace_audio_file_paths`: double-quoted paths, then
single-quoted paths, then the `audio_file` and `file_path` assignment
forms. -/
def replace_audio_file_paths (code : String) (mock_path : String) : String :=
  reSub (varAssignSub ("file_path").data mock_path.data)
    (reSub (varAssignSub ("audio_file").data mock_path.data)
      (reSub (audioQuoteSub '\'' mock_path.data)
        (reSub (audioQuoteSub '"' mock_path.data) code)))

/-- `re.sub(r'"https://dpgr\.am/[^"]*"', '"https://example.com/test.wav"',
code)`. -/
def urlSub : TryFun := fun _ cs =>
  match cs with
  | '"' :: rest =>
    match stripLit ("https://dpgr.am/").data rest with
    | none => none
    | some r1 =>
      let body := r1.takeWhile (fun ch => ch ≠ '"')
      match r1.drop body.length with
      | _ :: r2 => some (("\"https://example.com/test.wav\"").data, '"', r2)
      | [] => none
  | _ => none

/-! ## Migration-comment stripping (`_prepare_code_for_execution`, step 1)

`re.sub(r'#\s*For help migrating.*?\n.*?#.*?/docs/Migrating.*?\n\s*', '',
code, flags=re.MULTILINE)`: `.` never crosses a newline, so the lazy
`.*?\n` pieces each reach exactly the end of their line; the second line
must hold a `#` with `/docs/Migrating` somewhere after it; the final `\s*`
is greedy. -/

/-- A `#` with `/docs/Migrating` after it, within one line. -/
def hasHashThenDocs : List Char → Bool
  | [] => false
  | c :: t =>
    (c = '#' && listContains t ("/docs/Migrating").data) || hasHashThenDocs t

/-- The migration-comment matcher. -/
def migrationSub : TryFun := fun _ cs =>
  match cs with
  | '#' :: r0 =>
    let w0 := r0.takeWhile pyWs
    match stripLit ("For help migrating").data (r0.drop w0.length) with
    | none => none
    | some r1 =>
      let l1 := r1.takeWhile (fun c => c ≠ '\n')
      match r1.drop l1.length with
      | _ :: r2 =>
        let l2 := r2.takeWhile (fun c => c ≠ '\n')
        match r2.drop l2.length with
        | _ :: r3 =>
          if hasHashThenDocs l2 then
            let w1 := r3.takeWhile pyWs
            some ([], w1.getLastD '\n', r3.drop w1.length)
          else none
        | [] => none
      | [] => none
  | _ => none

/-! ## Indentation normalization (`_fix_indentation` / `textwrap.dedent`) -/

/-- A character of the `[ \t]` indent class of `textwrap.dedent`. -/
def isIndentChar (c : Char) : Bool :=
  c = ' ' || c = '\t'

/-- Longest common prefix (the margin-merging logic of `textwrap.dedent`:
keep the margin while the new indent extends it, else cut at the first
divergence). -/
def commonPre : List Char → List Char → List Char
  | a :: as, b :: bs => if a = b then a :: commonPre as bs else []
  | _, _ => []

/-- `textwrap.dedent`: blank whitespace-only lines, compute the common
leading-whitespace margin of the content lines, strip it from every line
that starts with it. -/
def dedent (s : String) : String :=
  let lines := splitLinesL s.data
  let lines1 := lines.map fun l =>
    if !l.isEmpty && l.all isIndentChar then [] else l
  let indents := lines1.filterMap fun l =>
    let ind := l.takeWhile isIndentChar
    if (l.drop ind.length).isEmpty then none else some ind
  let margin := indents.foldl
    (fun acc i =>
      match acc with
      | none => some i
      | some m => some (commonPre m i))
    none
  match margin with
  | none => ⟨joinLinesL lines1⟩
  | some m =>
    if m.isEmpty then ⟨joinLinesL lines1⟩
    else ⟨joinLinesL (lines1.map fun l =>
      if m.isPrefixOf l then l.drop m.length else l)⟩

/-- `PythonExecutor._fix_indentation`: `textwrap.dedent(code).strip()`. -/
def fix_indentation (code : String) : String :=
  pyStrip (dedent code)

/-! ## Missing-import injection (`_add_missing_imports`) -/

/-- The guarded `load_dotenv` substitute block. -/
def dotenvBlock : String :=
  "try:\n    from dotenv import load_dotenv\nexcept ImportError:\n    def load_dotenv(*args, **kwargs):\n        pass  # Mock implementation for testing"

/-- The guarded `requests` substitute block (braces as hex escapes). -/
def requestsBlock : String :=
  "try:\n    import requests\nexcept ImportError:\n    class MockRequests:\n        @staticmethod\n        def get(*args, **kwargs):\n            class MockResponse:\n                status_code = 200\n                def json(self): return \x7b\"mock\": \"data\"\x7d\n                def raise_for_status(self): pass\n            return MockResponse()\n    requests = MockRequests()"

/-- The guarded `verboselogs` substitute block. -/
def verboselogsBlock : String :=
  "try:\n    from deepgram.utils import verboselogs\nexcept ImportError:\n    class MockVerboseLogs:\n        @staticmethod\n        def info(*args): pass\n        @staticmethod\n        def debug(*args): pass\n    verboselogs = MockVerboseLogs()"

/-- `PythonExecutor._add_missing_imports`. -/
def add_missing_imports (code : String) : String :=
  let imports_to_add : List String :=
    (if containsSub code "time.sleep" && !containsSub code "import time" then
      ["import time"] else []) ++
    (if (containsSub code "os.getenv" || containsSub code "os.environ") &&
        !containsSub code "import os" then ["import os"] else []) ++
    (if containsSub code "Path(" && !containsSub code "from pathlib import Path" then
      ["from pathlib import Path"] else []) ++
    (if containsSub code "re." && !containsSub code "import re" then
      ["import re"] else [])
  let optional_imports : List String :=
    (if containsSub code "load_dotenv" && !containsSub code "from dotenv import" then
      [dotenvBlock] else []) ++
    (if containsSub code "requests." && !containsSub code "import requests" then
      [requestsBlock] else []) ++
    (if containsSub code "deepgram.utils" then [verboselogsBlock] else [])
  let all_imports := imports_to_add ++ optional_imports
  if all_imports.isEmpty then code
  else ⟨(joinLines all_imports).data ++ ("\n\n").data ++ code.data⟩

/-! ## Definition hoisting (`_handle_function_definitions` /
`_wrap_executable_code`) -/

/-- The inner `while` of `_wrap_executable_code` that collects the
continuation lines of a top-level definition (lines starting with a space,
or blank). -/
def collectDefLines : List String → (List String × List String)
  | [] => ([], [])
  | l :: t =>
    if strStarts l " " || pyStrip l = "" then
      let r := collectDefLines t
      (l :: r.1, r.2)
    else ([], l :: t)

/-- The partition loop of `_wrap_executable_code` (fueled by the number of
lines; every step consumes at least one line). -/
def wrapLoopF : Nat → List String → (List String × List String)
  | 0, _ => ([], [])
  | _ + 1, [] => ([], [])
  | n + 1, line :: t =>
    let stripped := pyStrip line
    if (strStarts stripped "def " || strStarts stripped "class ") &&
        !strStarts line " " then
      let c := collectDefLines t
      let r := wrapLoopF n c.2
      (line :: c.1 ++ r.1, r.2)
    else if stripped ≠ "" && !strStarts stripped "#" &&
        !strStarts stripped "import" && !strStarts stripped "from " then
      let r := wrapLoopF n t
      (r.1, line :: r.2)
    else if strStarts stripped "import" || strStarts stripped "from " ||
        stripped = "" then
      let r := wrapLoopF n t
      (line :: r.1, r.2)
    else
      let r := wrapLoopF n t
      (r.1, line :: r.2)

/-- `PythonExecutor._wrap_executable_code`. -/
def wrap_executable_code (code : String) : String :=
  let lines := splitLines code
  let parts := wrapLoopF lines.length lines
  let result := joinLines parts.1
  if !parts.2.isEmpty then
    let result1 := if pyStrip result ≠ "" then ⟨result.data ++ ("\n\n").data⟩ else result
    ⟨result1.data ++ ("# Execute the main logic\n").data ++ (joinLines parts.2).data⟩
  else result

/-- `PythonExecutor._handle_function_definitions`. -/
def handle_function_definitions (code : String) : String :=
  let lines := splitLines code
  let has_top_level_functions :=
    lines.any fun l => strStarts (pyStrip l) "def " && !strStarts l " "
  let has_top_level_classes :=
    lines.any fun l => strStarts (pyStrip l) "class " && !strStarts l " "
  if has_top_level_functions || has_top_level_classes then
    wrap_executable_code code
  else code

/-! ## The sandbox environment (`prepare_test_environment`) and the full
rewrite pipeline (`_prepare_code_for_execution`) -/

/-- The environment dictionary `prepare_test_environment` builds. -/
structure EnvInfo where
  temp_dir : String
  mock_files : List String
  env_vars : List (String × String)
  mock_audio_path : Option String
deriving Repr, DecidableEq

/-- The mock audio path `_create_mock_audio_file` returns
(`os.path.join(temp_dir, "test_audio.wav")`). -/
def mock_audio_file_path (temp_dir : String) : String :=
  ⟨temp_dir.data ++ ("/test_audio.wav").data⟩

/-- `PythonExecutor.prepare_test_environment`: `temp_dir` is the fresh
directory `tempfile.mkdtemp()` returned; the mock audio file is created
exactly for samples flagged `requires_audio_file`. -/
def prepare_test_environment (cfg : FrameworkConfig) (sample : CodeSample)
    (temp_dir : String) : EnvInfo :=
  if sample.requires_audio_file then
    { temp_dir := temp_dir
      mock_files := [mock_audio_file_path temp_dir]
      env_vars := create_mock_environment cfg
      mock_audio_path := some (mock_audio_file_path temp_dir) }
  else
    { temp_dir := temp_dir
      mock_files := []
      env_vars := create_mock_environment cfg
      mock_audio_path := none }

/-- `PythonExecutor._prepare_code_for_execution`: the ordered rewrite
pipeline.  The audio-path substitution runs exactly when the environment
holds a `mock_audio_path`; the URL neutralization runs after it. -/
def prepare_code_for_execution (sample : CodeSample) (env : EnvInfo) : String :=
  let c1 := reSub migrationSub sample.code
  let c2 := fix_indentation c1
  let c3 := credential_substitution c2
  let c4 := reSub importFixSub c3
  let c5 := reSub constructorFixSub c4
  let c6 := reSub apiKeyNameSub c5
  let c7 := replace_blocking_operations c6
  let c8 :=
    match env.mock_audio_path with
    | some mock => replace_audio_file_paths c7 mock
    | none => c7
  let c9 := reSub urlSub c8
  let c10 := add_missing_imports c9
  handle_function_definitions c10

/-! ## Quoted audio-path strings of a text

The claim about the audio substitution speaks of "every quoted string ...
that ends in a recognized audio extension".  The program's own notion of a
quoted audio path is a match of its pattern `q[^q]*\.(?:wav|...)q`; the
extraction below lists the contents of all such matches under the same
leftmost non-overlapping scan `re` uses. -/

/-- Fueled scan listing the contents of all leftmost non-overlapping
`q[^q]*\.(ext)q` matches. -/
def audioQuotedF (q : Char) : Nat → List Char → List (List Char)
  | 0, _ => []
  | _ + 1, [] => []
  | n + 1, c :: t =>
    if c = q then
      let content := t.takeWhile (fun ch => ch ≠ q)
      match t.drop content.length with
      | _ :: r2 =>
        if endsAudioExt content then content :: audioQuotedF q n r2
        else audioQuotedF q n t
      | [] => audioQuotedF q n t
    else audioQuotedF q n t

/-- The quoted audio-path strings of a text, for quote character `q`. -/
def audio_quoted_strings (q : Char) (s : String) : List (List Char) :=
  audioQuotedF q s.data.length s.data

/-! ## Scan laws

A matcher that consumes at least one character on success (`Shortens`) and
reads nothing from the previous-character argument (`PrevFree`) gives the
fueled scan its natural unfolding laws at exact fuel. -/

/-- The matcher consumes at least one character on success. -/
def Shortens (f : TryFun) : Prop :=
  ∀ p cs r c rest, f p cs = some (r, c, rest) → rest.length < cs.length

/-- The matcher ignores the previous-character argument. -/
def PrevFree (f : TryFun) : Prop :=
  ∀ p q cs, f p cs = f q cs

/-- Fuel irrelevance of the scan, given enough fuel. -/
theorem reSubF_congr {f : TryFun} (hf : Shortens f) :
    ∀ (n : Nat) (p : Option Char) (cs : List Char) (m : Nat),
      cs.length ≤ n → cs.length ≤ m → reSubF f n p cs = reSubF f m p cs := by
  intro n
  induction n with
  | zero =>
    intro p cs m h1 _
    have hcs : cs = [] := List.length_eq_zero.1 (Nat.le_zero.1 h1)
    subst hcs
    cases m <;> rfl
  | succ n ih =>
    intro p cs m h1 h2
    cases cs with
    | nil => cases m <;> rfl
    | cons c t =>
      obtain ⟨m', rfl⟩ : ∃ m', m = m' + 1 := by
        cases m with
        | zero => simp at h2
        | succ k => exact ⟨k, rfl⟩
      cases hm : f p (c :: t) with
      | some x =>
        obtain ⟨r, lc, rest⟩ := x
        have hlen := hf p (c :: t) r lc rest hm
        simp only [List.length_cons] at h1 h2 hlen
        simp only [reSubF, hm]
        rw [ih (some lc) rest m' (by omega) (by omega)]
      | none =>
        simp only [reSubF, hm]
        rw [ih (some c) t m'
          (by simp only [List.length_cons] at h1; omega)
          (by simp only [List.length_cons] at h2; omega)]

/-- Previous-character irrelevance of the scan for a `PrevFree` matcher. -/
theorem reSubF_prevFree {f : TryFun} (hp : PrevFree f) :
    ∀ (n : Nat) (p q : Option Char) (cs : List Char),
      reSubF f n p cs = reSubF f n q cs := by
  intro n
  induction n with
  | zero => intro p q cs; rfl
  | succ n _ =>
    intro p q cs
    cases cs with
    | nil => rfl
    | cons c t =>
      simp only [reSubF]
      rw [hp p q (c :: t)]

/-- Scan law: failed attempt copies one character. -/
theorem reSubL_cons_none {f : TryFun} (hp : PrevFree f)
    {c : Char} {t : List Char} (h : f none (c :: t) = none) :
    reSubL f (c :: t) = c :: reSubL f t := by
  show reSubF f (t.length + 1) none (c :: t) = c :: reSubF f t.length none t
  simp only [reSubF, h]
  rw [reSubF_prevFree hp t.length (some c) none]

/-- Scan law: successful attempt emits the replacement and continues after
the match. -/
theorem reSubL_cons_some {f : TryFun} (hf : Shortens f) (hp : PrevFree f)
    {c : Char} {t r : List Char} {lc : Char} {rest : List Char}
    (h : f none (c :: t) = some (r, lc, rest)) :
    reSubL f (c :: t) = r ++ reSubL f rest := by
  show reSubF f (t.length + 1) none (c :: t) = r ++ reSubF f rest.length none rest
  simp only [reSubF, h]
  have hlen : rest.length < t.length + 1 := hf none (c :: t) r lc rest h
  rw [reSubF_prevFree hp t.length (some lc) none,
    reSubF_congr hf t.length none rest rest.length (by omega) (by omega)]

/-- Scan law: a matcher that fails on every suffix leaves the text
unchanged. -/
theorem reSubL_eq_self {f : TryFun} (hp : PrevFree f) :
    ∀ cs : List Char, (∀ l, l <:+ cs → f none l = none) → reSubL f cs = cs := by
  intro cs
  induction cs with
  | nil => intro _; rfl
  | cons c t ih =>
    intro h
    rw [reSubL_cons_none hp (h (c :: t) (List.suffix_rfl))]
    rw [ih fun l hl => h l (hl.trans (List.suffix_cons c t))]

/-- A dropped list with a cons shape is strictly shorter than the
original. -/
theorem dropLt {l : List Char} {k : Nat} {c : Char} {r : List Char}
    (h : l.drop k = c :: r) : r.length < l.length := by
  have h1 : (l.drop k).length ≤ l.length := by
    simp only [List.length_drop]; omega
  rw [h] at h1
  simp only [List.length_cons] at h1
  omega

/-- `takeWhile` over a satisfying prefix followed by a failing head. -/
theorem takeWhile_all_append {p : Char → Bool} (A : List Char) (c : Char)
    (R : List Char) (hA : ∀ a ∈ A, p a = true) (hc : p c = false) :
    (A ++ c :: R).takeWhile p = A := by
  induction A with
  | nil => simp [List.takeWhile, hc]
  | cons a as ih =>
    have ha : p a = true := hA a (by simp)
    simp only [List.cons_append, List.takeWhile_cons, ha, if_true]
    rw [ih fun x hx => hA x (by simp [hx])]

/-- `takeWhile` of an all-satisfying list. -/
theorem takeWhile_of_all {p : Char → Bool} (A : List Char)
    (hA : ∀ a ∈ A, p a = true) : A.takeWhile p = A := by
  induction A with
  | nil => rfl
  | cons a as ih =>
    have ha : p a = true := hA a (by simp)
    simp only [List.takeWhile_cons, ha, if_true]
    rw [ih fun x hx => hA x (by simp [hx])]

/-! ## Laws of the fixed-string substitutions -/

/-- A text that does not contain `needle` has no suffix starting with
it. -/
theorem listContains_false {needle : List Char} :
    ∀ hay : List Char, listContains hay needle = false →
      ∀ l, l <:+ hay → needle.isPrefixOf l = false := by
  intro hay
  induction hay with
  | nil =>
    intro h l hl
    rw [List.suffix_nil.1 hl]
    unfold listContains at h
    simpa using h
  | cons a t ih =>
    intro h l hl
    unfold listContains at h
    rw [Bool.or_eq_false_iff] at h
    rcases List.suffix_cons_iff.1 hl with h1 | h1
    · rw [h1]; exact h.1
    · exact ih h.2 l h1

/-- The first-of-several fixed-string matcher ignores the previous
character. -/
theorem litsSub_prevFree (vs : List (List Char)) (repl : List Char) :
    PrevFree (litsSub vs repl) := by
  induction vs with
  | nil => intro p q cs; rfl
  | cons v t ih =>
    intro p q cs
    show (match litSub v repl p cs with
        | some r => some r
        | none => litsSub t repl p cs) =
      (match litSub v repl q cs with
        | some r => some r
        | none => litsSub t repl q cs)
    rw [show litSub v repl q cs = litSub v repl p cs from rfl]
    cases litSub v repl p cs with
    | some r => rfl
    | none => exact ih p q cs

/-- A fixed-string matcher fails where its string is not a prefix. -/
theorem litSub_none {lit repl l : List Char} (h : lit.isPrefixOf l = false)
    (p : Option Char) : litSub lit repl p l = none := by
  simp [litSub, stripLit, h]

/-- The first-of-several matcher fails where no string is a prefix. -/
theorem litsSub_none {repl : List Char} :
    ∀ (vs : List (List Char)) (l : List Char),
      (∀ v ∈ vs, v.isPrefixOf l = false) →
      ∀ p, litsSub vs repl p l = none := by
  intro vs
  induction vs with
  | nil => intro l h p; rfl
  | cons v t ih =>
    intro l h p
    show (match litSub v repl p l with
        | some r => some r
        | none => litsSub t repl p l) = none
    rw [litSub_none (h v (by simp)) p]
    exact ih l (fun w hw => h w (by simp [hw])) p

/-- A fixed-string substitution pass over a text that does not contain
its string is the identity. -/
theorem reSub_lit_id {lit repl : List Char} {s : String}
    (h : listContains s.data lit = false) :
    reSub (litSub lit repl) s = s := by
  have h2 := reSubL_eq_self (f := litSub lit repl) (fun _ _ _ => rfl) s.data
    (fun l hl => litSub_none (listContains_false s.data h l hl) none)
  show (⟨reSubL (litSub lit repl) s.data⟩ : String) = s
  rw [h2]

/-- A first-of-several substitution pass over a text containing none of
its strings is the identity. -/
theorem reSub_lits_id {vs : List (List Char)} {repl : List Char} {s : String}
    (h : ∀ v ∈ vs, listContains s.data v = false) :
    reSub (litsSub vs repl) s = s := by
  have h2 := reSubL_eq_self (litsSub_prevFree vs repl) s.data
    (fun l hl => litsSub_none vs l
      (fun v hv => listContains_false s.data (h v hv) l hl) none)
  show (⟨reSubL (litsSub vs repl) s.data⟩ : String) = s
  rw [h2]

/-- The double-quoted placeholder pass is the identity on a text without
the double-quoted placeholder. -/
theorem reSub_credDq_id {s : String}
    (h : listContains s.data ("\"YOUR_API_KEY\"").data = false) :
    reSub credDqSub s = s :=
  reSub_lit_id h

/-- The single-quoted placeholder pass is the identity on a text without
the single-quoted placeholder. -/
theorem reSub_credSq_id {s : String}
    (h : listContains s.data ("'YOUR_API_KEY'").data = false) :
    reSub credSqSub s = s :=
  reSub_lit_id h

/-- The `os.getenv` pass is the identity on a text containing none of its
four strings. -/
theorem reSub_getenv_id {s : String}
    (h : ∀ v ∈ getenvVariants, listContains s.data v = false) :
    reSub getenvSub s = s :=
  reSub_lits_id h

/-- The `os.environ.get` pass is the identity on a text containing none of
its four strings. -/
theorem reSub_environGet_id {s : String}
    (h : ∀ v ∈ environGetVariants, listContains s.data v = false) :
    reSub environGetSub s = s :=
  reSub_lits_id h

/-- Consuming a literal prefix from that very prefix followed by a rest
leaves the rest. -/
theorem stripLit_append (lit rest : List Char) :
    stripLit lit (lit ++ rest) = some rest := by
  unfold stripLit
  rw [if_pos, List.drop_left]
  exact List.isPrefixOf_iff_prefix.2 (List.prefix_append _ _)

/-- The fueled scan of an empty text is empty at any fuel. -/
theorem reSubF_nil (f : TryFun) (n : Nat) (p : Option Char) :
    reSubF f n p [] = [] := by
  cases n with
  | zero => rfl
  | succ m => rfl

/-- Scan law: a matcher that consumes the whole text at once yields just
its replacement. -/
theorem reSubL_of_some_nil {f : TryFun} {cs r : List Char} {lc : Char}
    (h : f none cs = some (r, lc, [])) (hne : cs ≠ []) :
    reSubL f cs = r := by
  cases cs with
  | nil => exact absurd rfl hne
  | cons c t =>
    show reSubF f (c :: t).length none (c :: t) = r
    simp only [List.length_cons, reSubF, h]
    rw [reSubF_nil, List.append_nil]

/-! ## Laws of the assignment substitution -/

/-- The assignment matcher on a double-quoted assignment of a nonempty
quote-free literal: the whole assignment is matched and replaced by the
mock assignment. -/
theorem varAssignSub_assign_dq (name mock X : List Char) (hne : X ≠ [])
    (hX : ∀ c ∈ X, isQuote c = false) :
    varAssignSub name mock none
        (name ++ ((" = ").data ++ ('"' :: (X ++ ['"'])))) =
      some (name ++ (" = \"").data ++ mock ++ ['"'], '"', []) := by
  have hbody : (X ++ ['"']).takeWhile (fun ch => !isQuote ch) = X :=
    takeWhile_all_append X '"' [] (fun a ha => by simp [hX a ha])
      (by simp [isQuote])
  have hbe : X.isEmpty = false := by
    cases X with
    | nil => exact absurd rfl hne
    | cons a t => rfl
  unfold varAssignSub
  rw [stripLit_append]
  try simp only []
  rw [show ((" = ").data ++ ('"' :: (X ++ ['"']))).takeWhile pyWs = [' ']
    from rfl]
  try simp only []
  rw [show ((" = ").data ++ ('"' :: (X ++ ['"']))).drop ([' ']).length =
    '=' :: (' ' :: ('"' :: (X ++ ['"']))) from rfl]
  try simp only []
  rw [show (' ' :: ('"' :: (X ++ ['"']))).takeWhile pyWs = [' '] from rfl]
  try simp only []
  rw [show (' ' :: ('"' :: (X ++ ['"']))).drop ([' ']).length =
    '"' :: (X ++ ['"']) from rfl]
  try simp only []
  rw [show isQuote '"' = true from rfl]
  simp only [if_true]
  rw [hbody]
  try simp only []
  rw [hbe]
  simp only [Bool.false_eq_true, if_false]
  rw [show (X ++ ['"']).drop X.length = ['"'] from List.drop_left X ['"']]
  rfl

/-- The assignment matcher on a single-quoted assignment of a nonempty
quote-free literal: the whole assignment is matched and replaced by the
double-quoted mock assignment. -/
theorem varAssignSub_assign_sq (name mock X : List Char) (hne : X ≠ [])
    (hX : ∀ c ∈ X, isQuote c = false) :
    varAssignSub name mock none
        (name ++ ((" = ").data ++ ('\'' :: (X ++ ['\''])))) =
      some (name ++ (" = \"").data ++ mock ++ ['"'], '\'', []) := by
  have hbody : (X ++ ['\'']).takeWhile (fun ch => !isQuote ch) = X :=
    takeWhile_all_append X '\'' [] (fun a ha => by simp [hX a ha])
      (by simp [isQuote])
  have hbe : X.isEmpty = false := by
    cases X with
    | nil => exact absurd rfl hne
    | cons a t => rfl
  unfold varAssignSub
  rw [stripLit_append]
  try simp only []
  rw [show ((" = ").data ++ ('\'' :: (X ++ ['\'']))).takeWhile pyWs = [' ']
    from rfl]
  try simp only []
  rw [show ((" = ").data ++ ('\'' :: (X ++ ['\'']))).drop ([' ']).length =
    '=' :: (' ' :: ('\'' :: (X ++ ['\'']))) from rfl]
  try simp only []
  rw [show (' ' :: ('\'' :: (X ++ ['\'']))).takeWhile pyWs = [' '] from rfl]
  try simp only []
  rw [show (' ' :: ('\'' :: (X ++ ['\'']))).drop ([' ']).length =
    '\'' :: (X ++ ['\'']) from rfl]
  try simp only []
  rw [show isQuote '\'' = true from rfl]
  simp only [if_true]
  rw [hbody]
  try simp only []
  rw [hbe]
  simp only [Bool.false_eq_true, if_false]
  rw [show (X ++ ['\'']).drop X.length = ['\''] from List.drop_left X ['\'']]
  rfl

/-- The scan of a whole double-quoted assignment to one of the two audio
variable names rewrites it to the mock assignment. -/
theorem reSubL_varAssign_dq (name mock X : List Char)
    (hname : name = ("audio_file").data ∨ name = ("file_path").data)
    (hne : X ≠ []) (hX : ∀ c ∈ X, isQuote c = false) :
    reSubL (varAssignSub name mock)
        (name ++ ((" = ").data ++ ('"' :: (X ++ ['"'])))) =
      name ++ (" = \"").data ++ mock ++ ['"'] := by
  refine reSubL_of_some_nil (varAssignSub_assign_dq name mock X hne hX) ?_
  rcases hname with rfl | rfl <;>
    exact fun hco => absurd (List.append_eq_nil.1 hco).1 (by decide)

/-- The scan of a whole single-quoted assignment to one of the two audio
variable names rewrites it to the double-quoted mock assignment. -/
theorem reSubL_varAssign_sq (name mock X : List Char)
    (hname : name = ("audio_file").data ∨ name = ("file_path").data)
    (hne : X ≠ []) (hX : ∀ c ∈ X, isQuote c = false) :
    reSubL (varAssignSub name mock)
        (name ++ ((" = ").data ++ ('\'' :: (X ++ ['\''])))) =
      name ++ (" = \"").data ++ mock ++ ['"'] := by
  refine reSubL_of_some_nil (varAssignSub_assign_sq name mock X hne hX) ?_
  rcases hname with rfl | rfl <;>
    exact fun hco => absurd (List.append_eq_nil.1 hco).1 (by decide)

/-! ## Laws of the audio-path substitution -/

/-- The audio-path matcher ignores the previous character. -/
theorem audioQuoteSub_prevFree (q : Char) (mock : List Char) :
    PrevFree (audioQuoteSub q mock) := fun _ _ _ => rfl

/-- The audio-path matcher fails at a non-quote head. -/
theorem audioQuoteSub_ne {q : Char} {mock : List Char} {c : Char}
    {t : List Char} (hc : c ≠ q) (p : Option Char) :
    audioQuoteSub q mock p (c :: t) = none := by
  simp [audioQuoteSub, hc]

/-- The audio-path matcher fails at a quote with no closing quote. -/
theorem audioQuoteSub_noclose {q : Char} {mock : List Char} {t : List Char}
    (h : ∀ c ∈ t, c ≠ q) (p : Option Char) :
    audioQuoteSub q mock p (q :: t) = none := by
  have htw : t.takeWhile (fun ch => decide (ch ≠ q)) = t :=
    takeWhile_of_all t fun a ha => by simpa using h a ha
  unfold audioQuoteSub
  simp only [if_true, eq_self_iff_true]
  simp only [htw, List.drop_length]

/-- The audio-path matcher at a quote with quote-free content and a closing
quote. -/
theorem audioQuoteSub_found {q : Char} {mock : List Char}
    {content r2 : List Char} (hcontent : ∀ c ∈ content, c ≠ q)
    (p : Option Char) :
    audioQuoteSub q mock p (q :: (content ++ q :: r2)) =
      (if endsAudioExt content then some (q :: mock ++ [q], q, r2) else none) := by
  have htw : (content ++ q :: r2).takeWhile (fun ch => decide (ch ≠ q)) = content :=
    takeWhile_all_append content q r2 (fun a ha => by simpa using hcontent a ha)
      (by simp)
  unfold audioQuoteSub
  simp only [if_true, eq_self_iff_true]
  simp only [htw, List.drop_left]

/-- The audio-path matcher consumes at least one character on success. -/
theorem audioQuoteSub_shortens (q : Char) (mock : List Char) :
    Shortens (audioQuoteSub q mock) := by
  intro p cs r c rest h
  unfold audioQuoteSub at h
  cases cs with
  | nil => simp at h
  | cons c0 t =>
    try simp only [] at h
    by_cases hc : c0 = q
    · rw [if_pos hc] at h
      try simp only [] at h
      rcases hd : t.drop ((t.takeWhile (fun ch => decide (ch ≠ q))).length) with
        _ | ⟨c2, r2⟩
      · rw [hd] at h; simp at h
      · rw [hd] at h
        try simp only [] at h
        by_cases he : endsAudioExt (t.takeWhile (fun ch => decide (ch ≠ q)))
        · rw [if_pos he] at h
          simp only [Option.some.injEq, Prod.mk.injEq] at h
          obtain ⟨-, -, hrest⟩ := h
          subst hrest
          have := dropLt hd
          simp only [List.length_cons]
          omega
        · rw [if_neg he] at h; simp at h
    · rw [if_neg hc] at h; simp at h

/-- Successful audio-path matches replace with the quoted mock path. -/
theorem audioQuoteSub_some_shape {q : Char} {mock : List Char}
    {p : Option Char} {cs r : List Char} {lc : Char} {rest : List Char}
    (h : audioQuoteSub q mock p cs = some (r, lc, rest)) :
    r = q :: mock ++ [q] := by
  unfold audioQuoteSub at h
  cases cs with
  | nil => simp at h
  | cons c0 t =>
    try simp only [] at h
    by_cases hc : c0 = q
    · rw [if_pos hc] at h
      try simp only [] at h
      rcases hd : t.drop ((t.takeWhile (fun ch => decide (ch ≠ q))).length) with
        _ | ⟨c2, r2⟩
      · rw [hd] at h; simp at h
      · rw [hd] at h
        try simp only [] at h
        by_cases he : endsAudioExt (t.takeWhile (fun ch => decide (ch ≠ q)))
        · rw [if_pos he] at h
          simp only [Option.some.injEq, Prod.mk.injEq] at h
          exact h.1.symm
        · rw [if_neg he] at h; simp at h
    · rw [if_neg hc] at h; simp at h

/-- The scan copies a quote-free prefix unchanged. -/
theorem reSubL_audio_copy {q : Char} {mock : List Char} (pre X : List Char)
    (h : ∀ c ∈ pre, c ≠ q) :
    reSubL (audioQuoteSub q mock) (pre ++ X) =
      pre ++ reSubL (audioQuoteSub q mock) X := by
  induction pre with
  | nil => simp
  | cons a as ih =>
    have ha : a ≠ q := h a (by simp)
    rw [List.cons_append,
      reSubL_cons_none (audioQuoteSub_prevFree q mock) (audioQuoteSub_ne ha none),
      ih fun c hc => h c (by simp [hc])]
    rfl

/-- The scan leaves a quote-free text unchanged. -/
theorem reSubL_audio_id {q : Char} {mock : List Char} (cs : List Char)
    (h : ∀ c ∈ cs, c ≠ q) : reSubL (audioQuoteSub q mock) cs = cs := by
  have h2 := @reSubL_audio_copy q mock cs [] h
  have h3 : reSubL (audioQuoteSub q mock) ([] : List Char) = [] := rfl
  rw [h3, List.append_nil] at h2
  exact h2

/-- The scan's output at a quote head starts with that quote. -/
theorem reSubL_audio_q_head {q : Char} {mock : List Char} (t : List Char) :
    ∃ Y, reSubL (audioQuoteSub q mock) (q :: t) = q :: Y := by
  cases hm : audioQuoteSub q mock none (q :: t) with
  | none =>
    exact ⟨reSubL (audioQuoteSub q mock) t,
      reSubL_cons_none (audioQuoteSub_prevFree q mock) hm⟩
  | some x =>
    obtain ⟨r, lc, rest⟩ := x
    have hr := audioQuoteSub_some_shape hm
    refine ⟨mock ++ [q] ++ reSubL (audioQuoteSub q mock) rest, ?_⟩
    rw [reSubL_cons_some (audioQuoteSub_shortens q mock)
      (audioQuoteSub_prevFree q mock) hm, hr]
    simp

/-! ## Laws of the quoted-audio-string extraction -/

/-- The extraction applied at exact fuel. -/
def audioQL (q : Char) (cs : List Char) : List (List Char) :=
  audioQuotedF q cs.length cs

/-- Fuel irrelevance of the extraction. -/
theorem audioQuotedF_congr (q : Char) :
    ∀ (n : Nat) (cs : List Char) (m : Nat),
      cs.length ≤ n → cs.length ≤ m → audioQuotedF q n cs = audioQuotedF q m cs := by
  intro n
  induction n with
  | zero =>
    intro cs m h1 _
    have hcs : cs = [] := List.length_eq_zero.1 (Nat.le_zero.1 h1)
    subst hcs
    cases m <;> rfl
  | succ n ih =>
    intro cs m h1 h2
    cases cs with
    | nil => cases m <;> rfl
    | cons c t =>
      obtain ⟨m', rfl⟩ : ∃ m', m = m' + 1 := by
        cases m with
        | zero => simp at h2
        | succ k => exact ⟨k, rfl⟩
      simp only [List.length_cons] at h1 h2
      by_cases hc : c = q
      · simp only [audioQuotedF, hc, if_true]
        rcases hd : t.drop ((t.takeWhile (fun ch => decide (ch ≠ q))).length) with
          _ | ⟨c2, r2⟩
        · exact ih t m' (by omega) (by omega)
        · have hr2 := dropLt hd
          by_cases he : endsAudioExt (t.takeWhile (fun ch => decide (ch ≠ q)))
          · simp only [he, if_true]
            rw [ih r2 m' (by omega) (by omega)]
          · simp only [he, if_false]
            exact ih t m' (by omega) (by omega)
      · simp only [audioQuotedF, hc, if_false]
        exact ih t m' (by omega) (by omega)

/-- Extraction law: a non-quote head is skipped. -/
theorem audioQL_cons_ne {q c : Char} {t : List Char} (hc : c ≠ q) :
    audioQL q (c :: t) = audioQL q t := by
  show audioQuotedF q (t.length + 1) (c :: t) = audioQuotedF q t.length t
  simp [audioQuotedF, hc]

/-- Extraction law: a quote-free run is skipped. -/
theorem audioQL_copy {q : Char} (pre X : List Char) (h : ∀ c ∈ pre, c ≠ q) :
    audioQL q (pre ++ X) = audioQL q X := by
  induction pre with
  | nil => simp
  | cons a as ih =>
    have ha : a ≠ q := h a (by simp)
    rw [List.cons_append, audioQL_cons_ne ha, ih fun c hc => h c (by simp [hc])]

/-- Extraction law: a quote with no closing quote is skipped. -/
theorem audioQL_q_noclose {q : Char} {t : List Char} (h : ∀ c ∈ t, c ≠ q) :
    audioQL q (q :: t) = audioQL q t := by
  have htw : t.takeWhile (fun ch => decide (ch ≠ q)) = t :=
    takeWhile_of_all t fun a ha => by simpa using h a ha
  show audioQuotedF q (t.length + 1) (q :: t) = audioQuotedF q t.length t
  simp only [audioQuotedF, eq_self_iff_true, if_true]
  rw [htw, List.drop_length]

/-- Extraction law at a quote with quote-free content and a closing
quote. -/
theorem audioQL_q_found {q : Char} {content r2 : List Char}
    (hcontent : ∀ c ∈ content, c ≠ q) :
    audioQL q (q :: (content ++ q :: r2)) =
      (if endsAudioExt content then content :: audioQL q r2
       else audioQL q (content ++ q :: r2)) := by
  have htw : (content ++ q :: r2).takeWhile (fun ch => decide (ch ≠ q)) = content :=
    takeWhile_all_append content q r2 (fun a ha => by simpa using hcontent a ha)
      (by simp)
  show audioQuotedF q ((content ++ q :: r2).length + 1) (q :: (content ++ q :: r2)) = _
  simp only [audioQuotedF, if_true, htw, List.drop_left]
  by_cases he : endsAudioExt content
  · simp only [he, if_true]
    rw [audioQuotedF_congr q (content ++ q :: r2).length r2 r2.length
      (by simp [List.length_append]; omega) le_rfl]
    rfl
  · simp only [he, if_false]
    rfl

/-- Extraction of a quote-free text is empty. -/
theorem audioQL_all_ne {q : Char} (cs : List Char) (h : ∀ c ∈ cs, c ≠ q) :
    audioQL q cs = [] := by
  have := audioQL_copy cs [] h
  simpa using this

/-- Splitting a list at its first occurrence of `q`. -/
theorem first_quote_split {q : Char} {t : List Char} (h : q ∈ t) :
    ∃ content r2, t = content ++ q :: r2 ∧ ∀ c ∈ content, c ≠ q := by
  induction t with
  | nil => simp at h
  | cons c ts ih =>
    by_cases hc : c = q
    · exact ⟨[], ts, by simp [hc], by simp⟩
    · have hmem : q ∈ ts := by
        rcases List.mem_cons.1 h with h1 | h1
        · exact absurd h1.symm hc
        · exact h1
      obtain ⟨content, r2, rfl, hcont⟩ := ih hmem
      exact ⟨c :: content, r2, by simp, by
        intro x hx
        rcases List.mem_cons.1 hx with h1 | h1
        · exact h1 ▸ hc
        · exact hcont x h1⟩

/-- After the quoted audio-path substitution with a quote-free mock path
that itself ends in an audio extension, every quoted audio-path string of
the output equals the mock path. -/
theorem audio_sub_only_mock (q : Char) (mock : List Char)
    (hq : ∀ c ∈ mock, c ≠ q) (he : endsAudioExt mock = true) :
    ∀ (cs s : List Char),
      s ∈ audioQL q (reSubL (audioQuoteSub q mock) cs) → s = mock := by
  have main : ∀ (n : Nat) (cs : List Char), cs.length ≤ n →
      ∀ s ∈ audioQL q (reSubL (audioQuoteSub q mock) cs), s = mock := by
    intro n
    induction n with
    | zero =>
      intro cs hlen s hs
      have hcs : cs = [] := List.length_eq_zero.1 (Nat.le_zero.1 hlen)
      subst hcs
      simp [reSubL, reSubF, audioQL, audioQuotedF] at hs
    | succ n ih =>
      intro cs hlen s hs
      cases cs with
      | nil => simp [reSubL, reSubF, audioQL, audioQuotedF] at hs
      | cons c t =>
        simp only [List.length_cons] at hlen
        by_cases hc : c = q
        · rw [hc] at hs
          by_cases hmem : q ∈ t
          · obtain ⟨content, r2, rfl, hcont⟩ := first_quote_split hmem
            have hlen' : content.length + 1 + r2.length ≤ n := by
              simp only [List.length_append, List.length_cons] at hlen
              omega
            by_cases hext : endsAudioExt content
            · rw [reSubL_cons_some (audioQuoteSub_shortens q mock)
                (audioQuoteSub_prevFree q mock)
                (by rw [audioQuoteSub_found hcont none, if_pos hext])] at hs
              rw [show (q :: mock ++ [q]) ++ reSubL (audioQuoteSub q mock) r2 =
                  q :: (mock ++ q :: reSubL (audioQuoteSub q mock) r2) by simp] at hs
              rw [audioQL_q_found hq, if_pos he] at hs
              rcases List.mem_cons.1 hs with h1 | h1
              · exact h1
              · exact ih r2 (by omega) s h1
            · rw [reSubL_cons_none (audioQuoteSub_prevFree q mock)
                (by rw [audioQuoteSub_found hcont none, if_neg hext])] at hs
              rw [reSubL_audio_copy content (q :: r2) hcont] at hs
              obtain ⟨Y, hY⟩ := @reSubL_audio_q_head q mock r2
              rw [hY] at hs
              rw [show (q :: (content ++ q :: Y)) = q :: (content ++ q :: Y) from rfl,
                audioQL_q_found hcont, if_neg hext, audioQL_copy content _ hcont,
                ← hY] at hs
              exact ih (q :: r2) (by simp only [List.length_cons]; omega) s hs
          · have hall : ∀ x ∈ t, x ≠ q := fun x hx e => hmem (e ▸ hx)
            rw [reSubL_cons_none (audioQuoteSub_prevFree q mock)
              (audioQuoteSub_noclose hall none), reSubL_audio_id t hall,
              audioQL_q_noclose hall, audioQL_all_ne t hall] at hs
            simp at hs
        · rw [reSubL_cons_none (audioQuoteSub_prevFree q mock)
            (audioQuoteSub_ne hc none), audioQL_cons_ne hc] at hs
          exact ih t (by omega) s hs
  exact fun cs s hs => main cs.length cs le_rfl s hs

/-- The mock audio path ends in the recognized extension `.wav`, whatever
the temporary directory is. -/
theorem endsAudioExt_mock (tempDir : String) :
    endsAudioExt (mock_audio_file_path tempDir).data = true := by
  have h1 : (".wav").data <:+ (mock_audio_file_path tempDir).data := by
    show (".wav").data <:+ tempDir.data ++ ("/test_audio.wav").data
    exact List.IsSuffix.trans (by decide) (List.suffix_append _ _)
  unfold endsAudioExt
  rw [List.any_eq_true]
  exact ⟨(".wav").data, by decide, List.isSuffixOf_iff_suffix.2 h1⟩

/-! ## Concrete fixtures used by closed theorems -/

/-- A concrete sample flagged `requires_audio_file` whose code holds a
dpgr.am URL without an audio extension. -/
def c4Sample : CodeSample :=
  { file_path := "docs/p.mdx"
    line_number := 1
    code := "from deepgram import DeepgramClient\naudio_url = \"https://dpgr.am/x\""
    language := "python"
    sample_type := "python_block"
    imports := []
    requires_api_key := true
    requires_audio_file := true
    metadata := [] }

/-- The environment prepared for `c4Sample` with temp dir `/tmp/t`. -/
def c4Env : EnvInfo :=
  prepare_test_environment
    { api_key_placeholder := none, timeout_seconds := none } c4Sample "/tmp/t"

/-- A concrete sample used as input of closed evaluations. -/
def sampleFix : CodeSample :=
  { file_path := "docs/page.mdx"
    line_number := 5
    code := "client = DeepgramClient(\"YOUR_API_KEY\")"
    language := "python"
    sample_type := "sync"
    imports := []
    requires_api_key := true
    requires_audio_file := false
    metadata := [] }

/-- A concrete successful result used as input of closed evaluations. -/
def resultFix : TestResult :=
  mkTestResult sampleFix true 0 "" "" "" none

/-! ## Claim theorems -/

/-- C9: after construction, a `TestResult`'s `validation_results` mapping is
never `None`: `__post_init__` normalizes an omitted or `None` argument to
the empty mapping, and passes a given mapping through, so the constructed
field always holds a value. -/
theorem C9_validation_results_never_none :
    (∀ (s : CodeSample) (su : Bool) (t : Rat) (o e m : String),
        (mkTestResult s su t o e m none).validation_results = some []) ∧
    (∀ (s : CodeSample) (su : Bool) (t : Rat) (o e m : String)
        (vr : Option (List (String × ValEntry))),
        (mkTestResult s su t o e m vr).validation_results ≠ none) := by
  constructor
  · intro s su t o e m
    rfl
  · intro s su t o e m vr
    cases vr <;> simp [mkTestResult]

/-- C1 (evaluation at the failing input): in the per-sample loop of
`TestRunner.run_language_tests`, when `prepare_test_environment` returns
normally and `execute_sample` raises, the allocated temporary directory is
never passed to `cleanup_test_environment` (zero cleanup calls - a leak),
although a directory was allocated and a failed result is recorded; on the
normal path the directory is cleaned up exactly once.  This contradicts the
claim that the directory is removed exactly once on every exit path. -/
theorem C1_cleanup_skipped_on_raise :
    (process_sample false PrepOutcome.ok (ExecBehavior.raises "boom")).dirsAllocated = 1 ∧
    (process_sample false PrepOutcome.ok (ExecBehavior.raises "boom")).cleanupCalls = 0 ∧
    (process_sample false (PrepOutcome.raisedAfterAlloc "disk full")
      (ExecBehavior.raises "unreached")).cleanupCalls = 0 ∧
    (process_sample false PrepOutcome.ok (ExecBehavior.returns resultFix)).cleanupCalls = 1 := by
  refine ⟨rfl, rfl, rfl, rfl⟩

/-- C3: in execution mode, when the subprocess exceeds the configured
wall-clock timeout (default 30 when `timeout_seconds` is absent),
`CSharpExecutor.execute_sample` returns a `TestResult` with `success=false`,
the fixed timeout message, empty captured streams, and an elapsed time of at
least the timeout bound (the setup phase takes nonnegative time and the
timed-out subprocess call, by the `subprocess.run` contract, ran for at
least the bound). -/
theorem C3_timeout_result (search : String → String → Bool)
    (rules : List ValidationRule) (sample : CodeSample) (cfg : FrameworkConfig)
    (tSetup tRun : Rat) (hSetup : 0 ≤ tSetup) (hRun : timeout_of cfg ≤ tRun) :
    (csharp_execute_sample search rules sample SubprocessOutcome.timedOut tSetup tRun).success
        = false ∧
    (csharp_execute_sample search rules sample SubprocessOutcome.timedOut tSetup tRun).error_message
        = "Test execution timed out" ∧
    (csharp_execute_sample search rules sample SubprocessOutcome.timedOut tSetup tRun).stdout
        = "" ∧
    (csharp_execute_sample search rules sample SubprocessOutcome.timedOut tSetup tRun).stderr
        = "" ∧
    timeout_of cfg ≤
      (csharp_execute_sample search rules sample SubprocessOutcome.timedOut tSetup tRun).execution_time ∧
    timeout_of { api_key_placeholder := none, timeout_seconds := none } = 30 := by
  refine ⟨rfl, rfl, rfl, rfl, ?_, rfl⟩
  show timeout_of cfg ≤ tSetup + tRun
  calc timeout_of cfg ≤ tRun := hRun
    _ ≤ tSetup + tRun := by linarith

/-- C6 (amended): the C# extraction excludes every block whose stripped
length is below its threshold of 30 and every comment-only block; the
Python analysis extraction excludes only blocks whose stripped length is
below 10 (comment-only blocks do produce a `CodeSample` there - see the
counterexample - and are filtered out separately, later, by the runner via
`should_skip_sample`, whose skip condition is exactly stripped length < 20
or comment-only). -/
theorem C6_extraction_thresholds :
    (∀ (fp content : String) (s : CodeSample),
        s ∈ cs_extract_samples_from_content fp content →
        30 ≤ (pyStrip s.code).length ∧ cs_comment_only s.code = false) ∧
    (∀ (fp content : String) (s : CodeSample),
        s ∈ py_extract_samples_for_analysis fp content →
        10 ≤ (pyStrip s.code).length) ∧
    (∀ s : CodeSample, should_skip_sample s = true ↔
        ((pyStrip s.code).length < 20 ∨ comment_only_py s.code = true)) := by
  refine ⟨?_, ?_, ?_⟩
  · intro fp content s h
    have h1 := (mem_cs_extract h).1
    have h2 := (cs_should_skip_eq_false_iff s.code).1 h1
    exact ⟨h2.1, h2.2.1⟩
  · intro fp content s h
    exact (mem_py_extract_samples h).1
  · intro s
    unfold should_skip_sample
    split_ifs with h1 h2 <;> simp_all

/-- C6 counterexample: a fenced Python block consisting solely of one
comment line (stripped length 22, comment-only) does produce a
`CodeSample` under `_extract_python_samples_for_analysis`, refuting the
claim that comment-only blocks (and blocks under a 20-30 character
threshold) produce no `CodeSample`. -/
theorem C6_counterexample_comment_only_block :
    ((py_extract_samples_for_analysis "docs/p.mdx"
        "```python\n# just a comment block\n```").map (fun s => s.code)) =
      ["# just a comment block"] ∧
    comment_only_py "# just a comment block" = true ∧
    (pyStrip "# just a comment block").length < 30 := by
  refine ⟨by decide, by decide, by decide⟩

/-- C8 (amended): the C# extraction computes both resource-need flags from
the block's code by the keyword/extension membership tests
`_requires_api_key` and `_requires_audio_file`; the Python analysis
extraction instead hardcodes `requires_api_key = True` and computes
`requires_audio_file` by the single case-insensitive substring test
`"audio" in code.lower()` (not by extension membership). -/
theorem C8_flag_computation :
    (∀ (fp content : String) (s : CodeSample),
        s ∈ cs_extract_samples_from_content fp content →
        s.requires_api_key = cs_requires_api_key s.code ∧
        s.requires_audio_file = cs_requires_audio_file s.code) ∧
    (∀ (fp content : String) (s : CodeSample),
        s ∈ py_extract_samples_for_analysis fp content →
        s.requires_api_key = true ∧
        s.requires_audio_file = containsSub (lowerStr s.code) "audio") := by
  constructor
  · intro fp content s h
    exact (mem_cs_extract h).2
  · intro fp content s h
    exact ⟨(mem_py_extract_samples h).2.1, (mem_py_extract_samples h).2.2⟩

/-- C8 counterexample: a Python block with no credential keyword still gets
`requires_api_key = true` (the flag is hardcoded, not computed by keyword
membership), and a block referencing `song.wav` (a media extension, so the
keyword test `_requires_audio_file` is true) gets
`requires_audio_file = false` because the extraction only tests for the
substring "audio". -/
theorem C8_counterexample_hardcoded_flags :
    ((py_extract_samples_for_analysis "docs/p.mdx"
        "```python\nprint(hello_world_value_12345)\n```").map
      (fun s => s.requires_api_key)) = [true] ∧
    py_requires_api_key "print(hello_world_value_12345)" = false ∧
    ((py_extract_samples_for_analysis "docs/p.mdx"
        "```python\nx = open(\"song.wav\")\n```").map
      (fun s => s.requires_audio_file)) = [false] ∧
    py_requires_audio_file "x = open(\"song.wav\")" = true := by
  refine ⟨by decide, by decide, by decide, by decide⟩

/-- C4 (amended): each quoted-audio-path substitution pass of
`_replace_audio_file_paths`, run with the sandbox mock audio path (which
contains no quote character and ends in `.wav`), produces a text whose
every quoted string in that quote style ending in a recognized audio
extension equals the mock path.  The original full-pipeline claim fails
because the dpgr.am URL neutralization runs after this step and introduces
the quoted placeholder `https://example.com/test.wav` (see the
counterexample). -/
theorem C4_audio_substitution_only_mock (tempDir code : String)
    (hd : ∀ c ∈ (mock_audio_file_path tempDir).data, c ≠ '"')
    (hq : ∀ c ∈ (mock_audio_file_path tempDir).data, c ≠ '\'') :
    (∀ s ∈ audio_quoted_strings '"'
        (reSub (audioQuoteSub '"' (mock_audio_file_path tempDir).data) code),
      s = (mock_audio_file_path tempDir).data) ∧
    (∀ s ∈ audio_quoted_strings '\''
        (reSub (audioQuoteSub '\'' (mock_audio_file_path tempDir).data) code),
      s = (mock_audio_file_path tempDir).data) := by
  have he := endsAudioExt_mock tempDir
  constructor
  · intro s hmem
    exact audio_sub_only_mock '"' _ hd he code.data s hmem
  · intro s hmem
    exact audio_sub_only_mock '\'' _ hq he code.data s hmem

/-- C4 witness: the double- and single-quoted substitution passes at the
temp dir `/tmp/t` on a concrete code text. -/
theorem C4_audio_substitution_only_mock_witness :
    (∀ s ∈ audio_quoted_strings '"'
        (reSub (audioQuoteSub '"' (mock_audio_file_path "/tmp/t").data)
          "p = \"song.wav\""),
      s = (mock_audio_file_path "/tmp/t").data) ∧
    (∀ s ∈ audio_quoted_strings '\''
        (reSub (audioQuoteSub '\'' (mock_audio_file_path "/tmp/t").data)
          "p = \"song.wav\""),
      s = (mock_audio_file_path "/tmp/t").data) :=
  C4_audio_substitution_only_mock "/tmp/t" "p = \"song.wav\""
    (by decide) (by decide)

/-- C4 counterexample: for a sample flagged `requires_audio_file=true`, the
full rewrite pipeline can produce a text whose one quoted audio-extension
string is the fixed placeholder URL `https://example.com/test.wav`, not the
sandbox's mock audio path: the dpgr.am URL-neutralization step runs after
the audio-path substitution and itself introduces a quoted `.wav` string. -/
theorem C4_counterexample_placeholder_url :
    c4Sample.requires_audio_file = true ∧
    audio_quoted_strings '"' (prepare_code_for_execution c4Sample c4Env) =
      [("https://example.com/test.wav").data] ∧
    ("https://example.com/test.wav").data ≠ (mock_audio_file_path "/tmp/t").data := by
  refine ⟨rfl, by decide, by decide⟩

/-- C5 (amended): the credential-replacement step is idempotent on every
text whose first pass leaves no occurrence of any recognized pattern
(either quoting style of the placeholder, or any of the read-from-
environment call strings); it is not idempotent unconditionally, because a
replacement's closing quote can complete a fresh occurrence of the
double-quoted placeholder (see the counterexample). -/
theorem C5_credential_substitution_conditional_idempotent (code : String)
    (h : cred_pattern_free (credential_substitution code) = true) :
    credential_substitution (credential_substitution code) =
      credential_substitution code := by
  unfold cred_pattern_free at h
  rw [List.all_eq_true] at h
  have h1 : listContains (credential_substitution code).data
      ("\"YOUR_API_KEY\"").data = false := by
    simpa using h _ (show ("\"YOUR_API_KEY\"").data ∈ credPatterns by decide)
  have h2 : listContains (credential_substitution code).data
      ("'YOUR_API_KEY'").data = false := by
    simpa using h _ (show ("'YOUR_API_KEY'").data ∈ credPatterns by decide)
  have hg : ∀ v ∈ getenvVariants,
      listContains (credential_substitution code).data v = false := by
    intro v hv
    have hm : v ∈ credPatterns :=
      List.mem_cons_of_mem _ (List.mem_cons_of_mem _
        (List.mem_append_left _ hv))
    simpa using h _ hm
  have hev : ∀ v ∈ environGetVariants,
      listContains (credential_substitution code).data v = false := by
    intro v hv
    have hm : v ∈ credPatterns :=
      List.mem_cons_of_mem _ (List.mem_cons_of_mem _
        (List.mem_append_right _ hv))
    simpa using h _ hm
  show reSub environGetSub (reSub getenvSub (reSub credSqSub (reSub credDqSub
      (credential_substitution code)))) = credential_substitution code
  rw [reSub_credDq_id h1, reSub_credSq_id h2, reSub_getenv_id hg,
    reSub_environGet_id hev]

/-- C5 witness: the conditional idempotence at a concrete sample line. -/
theorem C5_credential_substitution_conditional_idempotent_witness :
    cred_pattern_free (credential_substitution
      "client = DeepgramClient(\"YOUR_API_KEY\")") = true ∧
    credential_substitution (credential_substitution
      "client = DeepgramClient(\"YOUR_API_KEY\")") =
      credential_substitution "client = DeepgramClient(\"YOUR_API_KEY\")" :=
  ⟨by decide, C5_credential_substitution_conditional_idempotent
    "client = DeepgramClient(\"YOUR_API_KEY\")" (by decide)⟩

/-- C5 counterexample: the credential-replacement step is not idempotent on
the text `"YOUR_API_KEY"YOUR_API_KEY"`, where two quoted placeholders share
a quote character: the first pass replaces only the left occurrence (the
scan consumed the shared quote), and its replacement's closing quote forms
a new `"YOUR_API_KEY"` occurrence that only the second pass replaces. -/
theorem C5_counterexample_overlapping_placeholders :
    credential_substitution
        (credential_substitution "\"YOUR_API_KEY\"YOUR_API_KEY\"") ≠
      credential_substitution "\"YOUR_API_KEY\"YOUR_API_KEY\"" := by
  decide

/-- C10: a sample flagged `requires_audio_file=true` is exactly one whose
prepared environment holds the mock audio path (so
`_replace_audio_file_paths` runs on it); the step's `audio_file` /
`file_path` assignment patterns rewrite an assignment of any nonempty
quote-free string literal - in either quoting style, whether or not the
literal ends in a recognized audio extension - into an assignment of the
mock path; in particular the full step maps `file_path = "config.json"` to
the mock `.wav` assignment. -/
theorem C10_assignment_rewritten_regardless_of_extension
    (name mock X : List Char)
    (hname : name = ("audio_file").data ∨ name = ("file_path").data)
    (hne : X ≠ []) (hX : ∀ c ∈ X, isQuote c = false)
    (cfg : FrameworkConfig) (sample : CodeSample) (tempDir : String) :
    (reSubL (varAssignSub name mock)
        (name ++ ((" = ").data ++ ('"' :: (X ++ ['"'])))) =
      name ++ (" = \"").data ++ mock ++ ['"']) ∧
    (reSubL (varAssignSub name mock)
        (name ++ ((" = ").data ++ ('\'' :: (X ++ ['\''])))) =
      name ++ (" = \"").data ++ mock ++ ['"']) ∧
    replace_audio_file_paths "file_path = \"config.json\""
        (mock_audio_file_path "/tmp/t") =
      "file_path = \"/tmp/t/test_audio.wav\"" ∧
    ((prepare_test_environment cfg sample tempDir).mock_audio_path =
        some (mock_audio_file_path tempDir) ↔
      sample.requires_audio_file = true) := by
  refine ⟨reSubL_varAssign_dq name mock X hname hne hX,
    reSubL_varAssign_sq name mock X hname hne hX, by decide, ?_⟩
  unfold prepare_test_environment
  by_cases hf : sample.requires_audio_file = true
  · simp [hf]
  · simp [hf]

/-- C10 witness: the assignment rewriting at the example
`file_path = "config.json"` with the mock path of temp dir `/tmp/t`. -/
theorem C10_assignment_rewritten_regardless_of_extension_witness :
    (reSubL (varAssignSub ("file_path").data
          (mock_audio_file_path "/tmp/t").data)
        (("file_path").data ++ ((" = ").data ++
          ('"' :: (("config.json").data ++ ['"'])))) =
      ("file_path").data ++ (" = \"").data ++
        (mock_audio_file_path "/tmp/t").data ++ ['"']) ∧
    (reSubL (varAssignSub ("file_path").data
          (mock_audio_file_path "/tmp/t").data)
        (("file_path").data ++ ((" = ").data ++
          ('\'' :: (("config.json").data ++ ['\''])))) =
      ("file_path").data ++ (" = \"").data ++
        (mock_audio_file_path "/tmp/t").data ++ ['"']) ∧
    replace_audio_file_paths "file_path = \"config.json\""
        (mock_audio_file_path "/tmp/t") =
      "file_path = \"/tmp/t/test_audio.wav\"" ∧
    ((prepare_test_environment
          { api_key_placeholder := none, timeout_seconds := none }
          sampleFix "/tmp/t").mock_audio_path =
        some (mock_audio_file_path "/tmp/t") ↔
      sampleFix.requires_audio_file = true) :=
  C10_assignment_rewritten_regardless_of_extension
    ("file_path").data (mock_audio_file_path "/tmp/t").data
    ("config.json").data (Or.inr rfl) (by decide) (by decide)
    { api_key_placeholder := none, timeout_seconds := none }
    sampleFix "/tmp/t"

/-- C2: in analysis mode, `PythonExecutor.execute_sample` returns a
`TestResult` whose success flag is true if and only if no finding produced
for the sample is blocking, and whose stderr field is always the empty
string. -/
theorem C2_analysis_success_iff_no_blocking (sample : CodeSample) (elapsed : Rat) :
    ((python_execute_sample sample elapsed).success = true ↔
      ∀ f ∈ analyze_sample sample, f.blocking = false) ∧
    (python_execute_sample sample elapsed).stderr = "" := by
  constructor
  · simp [python_execute_sample, mkTestResult, List.any_eq_true]
  · rfl

/-- The priority-order characterization of both `_determine_sample_type`
implementations: each tag is produced exactly when its own condition holds
and every higher-priority condition fails (first match wins).  The Python
conditions are async syntax, `class`+`def`, websocket vocabulary, `def `,
else sync; the C# conditions are `async `+`await `, `class`+`public`,
Controller/WebApi ("web"), `Console.` ("console"), else sync. -/
theorem C7_classifier_priority_order (code : String) :
    ((py_determine_sample_type code = "async" ↔ py_async_cond code = true) ∧
     (py_determine_sample_type code = "class" ↔
       (py_async_cond code = false ∧ py_class_cond code = true)) ∧
     (py_determine_sample_type code = "streaming" ↔
       (py_async_cond code = false ∧ py_class_cond code = false ∧
        py_streaming_cond code = true)) ∧
     (py_determine_sample_type code = "function" ↔
       (py_async_cond code = false ∧ py_class_cond code = false ∧
        py_streaming_cond code = false ∧ py_function_cond code = true)) ∧
     (py_determine_sample_type code = "sync" ↔
       (py_async_cond code = false ∧ py_class_cond code = false ∧
        py_streaming_cond code = false ∧ py_function_cond code = false))) ∧
    ((cs_determine_sample_type code = "async" ↔ cs_async_cond code = true) ∧
     (cs_determine_sample_type code = "class" ↔
       (cs_async_cond code = false ∧ cs_class_cond code = true)) ∧
     (cs_determine_sample_type code = "web" ↔
       (cs_async_cond code = false ∧ cs_class_cond code = false ∧
        cs_web_cond code = true)) ∧
     (cs_determine_sample_type code = "console" ↔
       (cs_async_cond code = false ∧ cs_class_cond code = false ∧
        cs_web_cond code = false ∧ cs_console_cond code = true)) ∧
     (cs_determine_sample_type code = "sync" ↔
       (cs_async_cond code = false ∧ cs_class_cond code = false ∧
        cs_web_cond code = false ∧ cs_console_cond code = false))) := by
  constructor
  · rcases h1 : py_async_cond code <;> rcases h2 : py_class_cond code <;>
      rcases h3 : py_streaming_cond code <;> rcases h4 : py_function_cond code <;>
      simp [py_determine_sample_type, h1, h2, h3, h4]
  · rcases h1 : cs_async_cond code <;> rcases h2 : cs_class_cond code <;>
      rcases h3 : cs_web_cond code <;> rcases h4 : cs_console_cond code <;>
      simp [cs_determine_sample_type, h1, h2, h3, h4]

/-- C7 counterexample: a C# block containing streaming/socket vocabulary
(`WebSocket`), with no higher-priority condition holding, is classified
"sync" by `CSharpExecutor._determine_sample_type` rather than "streaming":
the C# classifier has no streaming category at all (its third and fourth
checks are "web" and "console"). -/
theorem C7_counterexample_csharp_websocket :
    containsSub (lowerStr "var ws = new WebSocket();") "websocket" = true ∧
    cs_async_cond "var ws = new WebSocket();" = false ∧
    cs_class_cond "var ws = new WebSocket();" = false ∧
    cs_determine_sample_type "var ws = new WebSocket();" = "sync" ∧
    cs_determine_sample_type "var ws = new WebSocket();" ≠ "streaming" := by
  refine ⟨by decide, by decide, by decide, by decide, by decide⟩

/-- C3 witness: the timeout theorem applied at a concrete configuration
(no configured timeout, hence bound 30), setup time 1 and subprocess
duration 31. -/
theorem C3_timeout_result_witness :
    (csharp_execute_sample (fun _ _ => false) [] sampleFix
        SubprocessOutcome.timedOut 1 31).success = false ∧
    (csharp_execute_sample (fun _ _ => false) [] sampleFix
        SubprocessOutcome.timedOut 1 31).error_message = "Test execution timed out" ∧
    (csharp_execute_sample (fun _ _ => false) [] sampleFix
        SubprocessOutcome.timedOut 1 31).stdout = "" ∧
    (csharp_execute_sample (fun _ _ => false) [] sampleFix
        SubprocessOutcome.timedOut 1 31).stderr = "" ∧
    timeout_of { api_key_placeholder := none, timeout_seconds := none } ≤
      (csharp_execute_sample (fun _ _ => false) [] sampleFix
        SubprocessOutcome.timedOut 1 31).execution_time ∧
    timeout_of { api_key_placeholder := none, timeout_seconds := none } = 30 := by
  have h := C3_timeout_result (fun _ _ => false) [] sampleFix
    { api_key_placeholder := none, timeout_seconds := none } 1 31
    (by norm_num) (by norm_num [timeout_of])
  exact h
